import Mathlib

/-!
Verification of the versioned-document lifecycle and cascade-deletion engine
of the resumator backend.  The relational rows (resumes, resume versions,
cover letters, cover letter versions, applications) are embedded as flat
lists inside a `DB` record, list order standing for insertion order
(`created_at` ascending, rowid ascending).  Each service method of
`ResumeService`, `ApplicationService` and `CoverLetterService` is translated
into a pure function over `DB`; raised exceptions become `Except SvcError`,
and an error result leaves the store untouched (the Python code rolls the
transaction back before re-raising).  The external AI generator is passed in
as an explicit function argument and the operations that may invoke it
return the number of generation calls performed.
-/

namespace Resumator

/-- Row of the `resumes` table. -/
structure ResumeRow where
  id : Nat
  user_id : Nat
  title : String
  is_default : Bool
deriving Repr, DecidableEq

/-- Row of the `resume_versions` table. -/
structure ResumeVersionRow where
  id : Nat
  resume_id : Nat
  version : String
  markdown_content : String
  job_description : Option String
  is_original : Bool
deriving Repr, DecidableEq

/-- Row of the `cover_letters` table. -/
structure CoverLetterRow where
  id : Nat
  user_id : Nat
  title : String
  is_default : Bool
deriving Repr, DecidableEq

/-- Row of the `cover_letter_versions` table. -/
structure CoverLetterVersionRow where
  id : Nat
  cover_letter_id : Nat
  version : String
  markdown_content : String
  job_description : Option String
  is_original : Bool
deriving Repr, DecidableEq

/-- Row of the `applications` table (the LinkRecord), with its five foreign
references: the mandatory protected `resume_id`/`resume_version_id`, the
optional owned `customized_resume_version_id`, the nullable-on-delete
`cover_letter_id`, the protected `cover_letter_version_id` and the owned
`customized_cover_letter_version_id`. -/
structure ApplicationRow where
  id : Nat
  user_id : Nat
  resume_id : Nat
  resume_version_id : Nat
  customized_resume_version_id : Option Nat
  cover_letter_id : Option Nat
  cover_letter_version_id : Option Nat
  customized_cover_letter_version_id : Option Nat
  company : String
  position : String
deriving Repr, DecidableEq

/-- The relational store.  `nextId` supplies fresh primary keys. -/
structure DB where
  resumes : List ResumeRow
  resumeVersions : List ResumeVersionRow
  coverLetters : List CoverLetterRow
  clVersions : List CoverLetterVersionRow
  applications : List ApplicationRow
  nextId : Nat
deriving Repr, DecidableEq

/-- The error taxonomy of `app/core/exceptions.py` as raised by the service
layer under study.  The module defines no conflict-style exception class;
dependency violations are reported through `validation`
(`ValidationError`, HTTP 422). -/
inductive SvcError where
  | resumeNotFound : Nat → SvcError
  | applicationNotFound : Nat → SvcError
  | coverLetterNotFound : Nat → SvcError
  | validation : String → SvcError
deriving Repr, DecidableEq

/-- SQL `LIKE '%suffix'` on a label: the pattern is a literal suffix of the
label (character-wise, as the reuse-key lookup uses it). -/
def likeEndsWith (label pattern : String) : Bool :=
  pattern.data.isSuffixOf label.data

namespace ResumeService

/-- `ResumeService.get_resume`: fetch a resume by id and owner. -/
def get_resume (db : DB) (user_id resume_id : Nat) : Except SvcError ResumeRow :=
  match db.resumes.find? (fun r => r.id == resume_id && r.user_id == user_id) with
  | some r => Except.ok r
  | none => Except.error (SvcError.resumeNotFound resume_id)

/-- `ResumeService.upload_resume`: create the master resume together with its
initial version labeled "v1" and `is_original = true`, in one transaction.
Returns the new store and the new resume id. -/
def upload_resume (db : DB) (user_id : Nat) (title markdown : String) : DB × Nat :=
  let resume : ResumeRow :=
    { id := db.nextId, user_id := user_id, title := title, is_default := false }
  let version : ResumeVersionRow :=
    { id := db.nextId + 1, resume_id := resume.id, version := "v1",
      markdown_content := markdown, job_description := none, is_original := true }
  ({ db with
      resumes := db.resumes ++ [resume],
      resumeVersions := db.resumeVersions ++ [version],
      nextId := db.nextId + 2 }, resume.id)

/-- Result shape of `ResumeService.check_version_dependencies`. -/
structure VersionDeps where
  can_delete : Bool
  application_count : Nat
  is_original : Bool
  is_last_version : Bool
  message : String
deriving Repr, DecidableEq

/-- `ResumeService.check_version_dependencies`: decide whether a resume
version may be deleted.  Counts the versions of the master, the applications
holding the version as their protected `resume_version_id` and those holding
it as their owned `customized_resume_version_id`, then applies the branch
chain of the source. -/
def check_version_dependencies (db : DB) (user_id resume_id version_id : Nat) :
    Except SvcError VersionDeps :=
  match get_resume db user_id resume_id with
  | Except.error e => Except.error e
  | Except.ok _ =>
    match db.resumeVersions.find? (fun v => v.id == version_id && v.resume_id == resume_id) with
    | none => Except.error (SvcError.validation "Version not found")
    | some version =>
      let version_count := (db.resumeVersions.filter (fun v => v.resume_id == resume_id)).length
      let applications_original :=
        db.applications.filter (fun a => a.resume_version_id == version_id)
      let applications_customized :=
        db.applications.filter (fun a => a.customized_resume_version_id == some version_id)
      let total_apps := applications_original.length + applications_customized.length
      if version_count ≤ 1 then
        Except.ok { can_delete := false, application_count := total_apps,
                    is_original := version.is_original, is_last_version := true,
                    message := "Cannot delete the only version of a resume." }
      else if version.is_original = true ∧ 0 < applications_original.length then
        Except.ok { can_delete := false, application_count := total_apps,
                    is_original := version.is_original, is_last_version := false,
                    message := "Cannot delete original version. It is referenced by " ++
                      toString applications_original.length ++
                      " application(s) as their original version." }
      else if 0 < applications_customized.length then
        Except.ok { can_delete := false, application_count := total_apps,
                    is_original := version.is_original, is_last_version := false,
                    message := "Cannot delete version. It is used as a customized version by " ++
                      toString applications_customized.length ++ " application(s)." }
      else
        Except.ok { can_delete := true, application_count := total_apps,
                    is_original := version.is_original, is_last_version := false,
                    message := "Version can be safely deleted." }

/-- `ResumeService.delete_resume_version`: run the dependency check, raise
`ValidationError` with the check's message when deletion is blocked,
otherwise delete the single version row.  The commit of that delete still
fails with `IntegrityError` when any application holds the version as its
protected `resume_version_id` (NOT NULL, `ondelete="RESTRICT"`,
`passive_deletes=False`; reachable with `can_delete = true` for
non-original versions): the generic handler rolls back and returns `False`
with the row intact. -/
def delete_resume_version (db : DB) (user_id resume_id version_id : Nat) :
    Except SvcError (Bool × DB) :=
  match check_version_dependencies db user_id resume_id version_id with
  | Except.error e => Except.error e
  | Except.ok dependencies =>
    if dependencies.can_delete = false then
      Except.error (SvcError.validation dependencies.message)
    else
      match db.resumeVersions.find? (fun v => v.id == version_id && v.resume_id == resume_id) with
      | none => Except.ok (false, db)
      | some version =>
        if db.applications.any (fun a => a.resume_version_id == version.id) then
          Except.ok (false, db)
        else
          Except.ok (true,
            { db with resumeVersions := db.resumeVersions.filter (fun w => w.id != version.id) })

/-- `ResumeService.delete_application_resume_version`: the cascade helper.
Deletes a version only when it exists, is owned by the user through its
parent resume, and has `is_original = false`; otherwise it deletes nothing
and reports `false`.  Even then the commit fails whenever any application
still holds the version as its protected `resume_version_id`: that column
is NOT NULL with `ondelete="RESTRICT"` and the `ResumeVersion.applications`
relationship has `passive_deletes=False`, so the flush raises
`IntegrityError` (foreign keys are enforced: PRAGMA foreign_keys=ON in the
test engine, PostgreSQL in production); the except block rolls back and
returns `False` with the row intact. -/
def delete_application_resume_version (db : DB) (user_id version_id : Nat) : Bool × DB :=
  match db.resumeVersions.find? (fun v =>
      v.id == version_id && v.is_original == false &&
      db.resumes.any (fun r => r.id == v.resume_id && r.user_id == user_id)) with
  | none => (false, db)
  | some version =>
    if db.applications.any (fun a => a.resume_version_id == version.id) then
      (false, db)
    else
      (true, { db with resumeVersions := db.resumeVersions.filter (fun w => w.id != version.id) })

/-- The new version row built by `customize_resume_for_application` when no
reusable company version exists: label "v{n+1} - {company}" where n is the
current version count of the master, `is_original = false`, job description
recorded. -/
def company_version_record (db : DB) (resume_id : Nat)
    (content job_description company : String) : ResumeVersionRow :=
  { id := db.nextId, resume_id := resume_id,
    version := "v" ++
      toString ((db.resumeVersions.filter (fun v => v.resume_id == resume_id)).length + 1) ++
      " - " ++ company,
    markdown_content := content, job_description := some job_description,
    is_original := false }

/-- `ResumeService.customize_resume_for_application`: company-keyed
customization with idempotent reuse.  `rewrite_resume` is the external AI
generator; the third component of the result counts how many times it was
invoked. -/
def customize_resume_for_application
    (rewrite_resume : String → String → Option String → String)
    (db : DB) (user_id resume_id original_version_id : Nat)
    (job_description company : String)
    (customized_markdown : Option String) (additional_instructions : Option String) :
    Except SvcError (ResumeVersionRow × DB × Nat) :=
  match get_resume db user_id resume_id with
  | Except.error e => Except.error e
  | Except.ok _ =>
    match db.resumeVersions.find? (fun v =>
        v.id == original_version_id && v.resume_id == resume_id) with
    | none => Except.error (SvcError.validation "Original resume version not found")
    | some original_version =>
      let company_suffix := " - " ++ company
      match db.resumeVersions.find? (fun v =>
          v.resume_id == resume_id && likeEndsWith v.version company_suffix) with
      | some existing_version => Except.ok (existing_version, db, 0)
      | none =>
        let generated : String × Nat :=
          match customized_markdown with
          | some m =>
            if m.isEmpty then
              (rewrite_resume original_version.markdown_content job_description
                additional_instructions, 1)
            else (m, 0)
          | none =>
            (rewrite_resume original_version.markdown_content job_description
              additional_instructions, 1)
        let new_version_record :=
          company_version_record db resume_id generated.1 job_description company
        Except.ok (new_version_record,
          { db with resumeVersions := db.resumeVersions ++ [new_version_record],
                    nextId := db.nextId + 1 }, generated.2)

/-- Result shape of `ResumeService.check_resume_dependencies`. -/
structure ResumeDeps where
  can_delete : Bool
  application_count : Nat
  message : String
deriving Repr, DecidableEq

/-- `ResumeService.check_resume_dependencies`: collect the applications whose
`resume_id` points at this master; deletable iff there are none. -/
def check_resume_dependencies (db : DB) (user_id resume_id : Nat) :
    Except SvcError ResumeDeps :=
  match get_resume db user_id resume_id with
  | Except.error e => Except.error e
  | Except.ok _ =>
    let applications := db.applications.filter (fun a => a.resume_id == resume_id)
    if applications.length == 0 then
      Except.ok { can_delete := true, application_count := 0,
                  message := "Resume can be safely deleted. No applications depend on it." }
    else
      Except.ok { can_delete := false, application_count := applications.length,
                  message := "Cannot delete resume. It is referenced by " ++
                    toString applications.length ++
                    " application(s). You must first delete the applications or reassign them to a different resume." }

end ResumeService

namespace ApplicationService

/-- `ApplicationService.get_application`: fetch an application by id and
owner; absence and foreign ownership both surface as not-found. -/
def get_application (db : DB) (user_id application_id : Nat) : Except SvcError ApplicationRow :=
  match db.applications.find? (fun a => a.id == application_id && a.user_id == user_id) with
  | some a => Except.ok a
  | none => Except.error (SvcError.applicationNotFound application_id)

/-- Result shape of `ApplicationService.delete_application`. -/
structure DeleteAppResult where
  success : Bool
  application_deleted : Bool
  customized_version_deleted : Bool
  customized_version_id : Option Nat
  original_resume_preserved : Bool
  original_version_preserved : Bool
  message : String
  warnings : List String
deriving Repr, DecidableEq

/-- `ApplicationService.delete_application`: delete a LinkRecord, cascading
into its owned customized resume version when no *other* application holds
the same version as its `customized_resume_version_id`.  With `dry_run` the
plan is returned and the store is left untouched.  The generic exception
handler of the source re-raises every failure (including the not-found of
`get_application`) as `ValidationError`. -/
def delete_application (db : DB) (user_id application_id : Nat) (dry_run : Bool) :
    Except SvcError (DeleteAppResult × DB) :=
  match get_application db user_id application_id with
  | Except.error _ =>
    Except.error (SvcError.validation "Failed to delete application")
  | Except.ok application =>
    let base : DeleteAppResult :=
      { success := false, application_deleted := false, customized_version_deleted := false,
        customized_version_id := none, original_resume_preserved := true,
        original_version_preserved := true, message := "", warnings := [] }
    let other_apps_count :=
      match application.customized_resume_version_id with
      | some cvid =>
        (db.applications.filter (fun a =>
            a.id != application_id && a.customized_resume_version_id == some cvid)).length
      | none => 0
    let can_delete_customized :=
      match application.customized_resume_version_id with
      | some _ => other_apps_count == 0
      | none => false
    let r1 : DeleteAppResult :=
      match application.customized_resume_version_id with
      | some cvid =>
        if 0 < other_apps_count then
          { base with warnings :=
              ["Customized resume version (ID: " ++ toString cvid ++ ") is used by " ++
                toString other_apps_count ++ " other application(s) and will be preserved."] }
        else
          { base with customized_version_id := some cvid }
      | none => base
    if dry_run then
      let msg :=
        match application.customized_resume_version_id with
        | some cvid =>
          if can_delete_customized then
            "Dry run completed. No data was deleted. Would delete customized version ID " ++
              toString cvid ++ "."
          else "Dry run completed. No data was deleted."
        | none => "Dry run completed. No data was deleted."
      Except.ok ({ r1 with success := true, message := msg }, db)
    else
      let step1 : Bool × DB :=
        if can_delete_customized then
          match application.customized_resume_version_id with
          | some cvid => ResumeService.delete_application_resume_version db user_id cvid
          | none => (false, db)
        else (false, db)
      let db2 : DB :=
        { step1.2 with
            applications := step1.2.applications.filter (fun a => a.id != application_id) }
      let msg := "Application for " ++ application.company ++ " - " ++ application.position ++
        " deleted successfully." ++
        (if step1.1 then " Customized resume version was also deleted." else "")
      Except.ok ({ r1 with
                    success := true
                    application_deleted := true
                    customized_version_deleted := step1.1
                    message := msg }, db2)

/-- Result shape of `ApplicationService.get_application_deletion_preview`,
restricted to the plan for the owned customized resume version. -/
structure DeletionPreview where
  application_id : Nat
  will_delete_customized : Option Nat
  will_preserve_customized : Option Nat
  warnings : List String
deriving Repr, DecidableEq

/-- `ApplicationService.get_application_deletion_preview`: the read-only
deletion plan.  The customized version appears under `will_delete` only when
its row exists and no other application shares it. -/
def get_application_deletion_preview (db : DB) (user_id application_id : Nat) :
    Except SvcError DeletionPreview :=
  match get_application db user_id application_id with
  | Except.error _ =>
    Except.error (SvcError.validation "Failed to get deletion preview")
  | Except.ok application =>
    match application.customized_resume_version_id with
    | none =>
      Except.ok { application_id := application.id, will_delete_customized := none,
                  will_preserve_customized := none, warnings := [] }
    | some cvid =>
      match db.resumeVersions.find? (fun v => v.id == cvid) with
      | none =>
        Except.ok { application_id := application.id, will_delete_customized := none,
                    will_preserve_customized := none, warnings := [] }
      | some customized_version =>
        let other_apps := (db.applications.filter (fun a =>
            a.id != application_id &&
            a.customized_resume_version_id == some customized_version.id)).length
        if 0 < other_apps then
          Except.ok { application_id := application.id, will_delete_customized := none,
                      will_preserve_customized := some customized_version.id,
                      warnings :=
                        ["Customized version " ++ customized_version.version ++
                          " is used by " ++ toString other_apps ++
                          " other application(s) and will NOT be deleted."] }
        else
          Except.ok { application_id := application.id,
                      will_delete_customized := some customized_version.id,
                      will_preserve_customized := none, warnings := [] }

end ApplicationService

namespace ResumeService

/-- The per-application loop of `ResumeService.delete_resume_with_applications`:
apply `delete_application` to each collected application, counting successes
and skipping (with a logged warning) any item whose deletion raises. -/
def delete_applications_loop (user_id : Nat) (apps : List ApplicationRow)
    (db : DB) (count : Nat) : DB × Nat :=
  match apps with
  | [] => (db, count)
  | a :: rest =>
    match ApplicationService.delete_application db user_id a.id false with
    | Except.ok (res, db1) =>
      delete_applications_loop user_id rest db1 (if res.success then count + 1 else count)
    | Except.error _ => delete_applications_loop user_id rest db count

/-- Result shape of `ResumeService.delete_resume_with_applications`. -/
structure DeleteResumeResult where
  success : Bool
  resume_deleted : Bool
  applications_deleted : Nat
  versions_deleted : Nat
  message : String
deriving Repr, DecidableEq

/-- `ResumeService.delete_resume_with_applications`: the forced master
deletion.  Without `force` a blocking application raises `ValidationError`.
Otherwise every application whose `resume_id` points at the master is
deleted via `delete_application` (each in its own committed transaction,
failures skipped), and the master is then deleted together with its
remaining versions (ORM ownership cascade).  That final commit fails with
`IntegrityError` whenever an application survived the loop still holding
the master as its `resume_id` or one of its versions as its
`resume_version_id` (both NOT NULL with `ondelete="RESTRICT"` and
`passive_deletes=False`); the handler rolls back only the final
transaction and re-raises `ValidationError`, so the per-item deletions
already committed by the loop persist.  The state is therefore returned
alongside the result in either case. -/
def delete_resume_with_applications (db : DB) (user_id resume_id : Nat) (force : Bool) :
    DB × Except SvcError DeleteResumeResult :=
  match get_resume db user_id resume_id with
  | Except.error e => (db, Except.error e)
  | Except.ok resume =>
    match check_resume_dependencies db user_id resume_id with
    | Except.error e => (db, Except.error e)
    | Except.ok dependencies =>
      if force = false ∧ dependencies.can_delete = false then
        (db, Except.error (SvcError.validation ("Resume has " ++
          toString dependencies.application_count ++
          " dependent application(s). Use force=True to delete all applications and the resume.")))
      else
        let applications := db.applications.filter (fun a => a.resume_id == resume_id)
        let loop := delete_applications_loop user_id applications db 0
        let db1 := loop.1
        let applications_deleted := loop.2
        let version_count :=
          (db1.resumeVersions.filter (fun v => v.resume_id == resume_id)).length
        if db1.applications.any (fun a => a.resume_id == resume.id ||
            db1.resumeVersions.any (fun v =>
              v.resume_id == resume.id && a.resume_version_id == v.id)) then
          (db1, Except.error (SvcError.validation "Failed to delete resume"))
        else
          ({ db1 with
              resumes := db1.resumes.filter (fun r => r.id != resume.id),
              resumeVersions := db1.resumeVersions.filter (fun v => v.resume_id != resume.id) },
           Except.ok { success := true, resume_deleted := true,
                       applications_deleted := applications_deleted,
                       versions_deleted := version_count,
                       message := "Deleted resume " ++ resume.title ++ ", " ++
                         toString applications_deleted ++ " application(s), and " ++
                         toString version_count ++ " version(s)." })

end ResumeService

namespace CoverLetterService

/-- `CoverLetterService.get_cover_letter`: fetch a cover letter by id and
owner. -/
def get_cover_letter (db : DB) (user_id cover_letter_id : Nat) :
    Except SvcError CoverLetterRow :=
  match db.coverLetters.find? (fun c => c.id == cover_letter_id && c.user_id == user_id) with
  | some c => Except.ok c
  | none => Except.error (SvcError.coverLetterNotFound cover_letter_id)

/-- `CoverLetterService.create_version`: append a version to a cover letter.
An original version is labeled "v1"; a derived one is labeled "v{n+1}" from
the current version count. -/
def create_version (db : DB) (user_id cover_letter_id : Nat) (content : String)
    (job_description : Option String) (is_original : Bool) :
    Except SvcError (CoverLetterVersionRow × DB) :=
  match get_cover_letter db user_id cover_letter_id with
  | Except.error e => Except.error e
  | Except.ok _ =>
    let version_name :=
      if is_original then "v1"
      else
        let version_count :=
          (db.clVersions.filter (fun v => v.cover_letter_id == cover_letter_id)).length
        "v" ++ toString (version_count + 1)
    let version : CoverLetterVersionRow :=
      { id := db.nextId, cover_letter_id := cover_letter_id, version := version_name,
        markdown_content := content, job_description := job_description,
        is_original := is_original }
    Except.ok (version,
      { db with clVersions := db.clVersions ++ [version], nextId := db.nextId + 1 })

/-- `CoverLetterService.create_cover_letter`: create the master record, then
create the initial version only when `content` is truthy (neither absent nor
the empty string).  Returns the new store and the new cover letter id. -/
def create_cover_letter (db : DB) (user_id : Nat) (title : String)
    (content : Option String) (is_default : Bool) : Except SvcError (DB × Nat) :=
  let cover_letter : CoverLetterRow :=
    { id := db.nextId, user_id := user_id, title := title, is_default := is_default }
  let db1 : DB :=
    { db with coverLetters := db.coverLetters ++ [cover_letter], nextId := db.nextId + 1 }
  match content with
  | some c =>
    if c.isEmpty then Except.ok (db1, cover_letter.id)
    else
      match create_version db1 user_id cover_letter.id c none true with
      | Except.error _ =>
        Except.error (SvcError.validation "Failed to create cover letter")
      | Except.ok (_, db2) => Except.ok (db2, cover_letter.id)
  | none => Except.ok (db1, cover_letter.id)

/-- `CoverLetterService.customize_for_application`: company customization of
a cover letter.  The label is the fixed string "v2 - {company}"; reuse is
keyed by exact label equality.  `generate` is the external AI generator; the
third component of the result counts its invocations. -/
def customize_for_application
    (generate : String → String → Option String → String)
    (db : DB) (user_id cover_letter_id : Nat) (job_description company : String)
    (customized_content : Option String) (additional_instructions : Option String) :
    Except SvcError (CoverLetterVersionRow × DB × Nat) :=
  match get_cover_letter db user_id cover_letter_id with
  | Except.error e => Except.error e
  | Except.ok _ =>
    match db.clVersions.reverse.find? (fun v =>
        v.cover_letter_id == cover_letter_id && v.is_original == true) with
    | none => Except.error (SvcError.validation "No original version found")
    | some _ =>
      let version_name := "v2 - " ++ company
      match db.clVersions.find? (fun v =>
          v.cover_letter_id == cover_letter_id && v.version == version_name) with
      | some existing_version => Except.ok (existing_version, db, 0)
      | none =>
        let generated : String × Nat :=
          match customized_content with
          | some m =>
            if m.isEmpty then (generate job_description company additional_instructions, 1)
            else (m, 0)
          | none => (generate job_description company additional_instructions, 1)
        let version : CoverLetterVersionRow :=
          { id := db.nextId, cover_letter_id := cover_letter_id, version := version_name,
            markdown_content := generated.1, job_description := some job_description,
            is_original := false }
        Except.ok (version,
          { db with clVersions := db.clVersions ++ [version], nextId := db.nextId + 1 },
          generated.2)

/-- Result shape of `CoverLetterService.check_dependencies`. -/
structure CoverLetterDeps where
  can_delete : Bool
  application_count : Nat
  message : String
deriving Repr, DecidableEq

/-- The join predicate of `CoverLetterService.check_dependencies`: the
application's `cover_letter_version_id` joins a version row belonging to
this cover letter. -/
def referencesCoverLetterVersion (db : DB) (cover_letter_id : Nat)
    (a : ApplicationRow) : Bool :=
  match a.cover_letter_version_id with
  | some vid => db.clVersions.any (fun v => v.id == vid && v.cover_letter_id == cover_letter_id)
  | none => false

/-- `CoverLetterService.check_dependencies`: collect the applications whose
`cover_letter_version_id` traces back to this master through the version
join; deletable iff there are none. -/
def check_dependencies (db : DB) (user_id cover_letter_id : Nat) :
    Except SvcError CoverLetterDeps :=
  match get_cover_letter db user_id cover_letter_id with
  | Except.error e => Except.error e
  | Except.ok _ =>
    let applications := db.applications.filter (referencesCoverLetterVersion db cover_letter_id)
    if applications.length == 0 then
      Except.ok { can_delete := true, application_count := 0,
                  message := "Cover letter can be safely deleted. No applications depend on it." }
    else
      Except.ok { can_delete := false, application_count := applications.length,
                  message := "Cannot delete cover letter. It is referenced by " ++
                    toString applications.length ++
                    " application(s). Delete those applications first." }

end CoverLetterService

/-- Whether a `delete_resume_version`-style call actually deleted a row. -/
def deletesRow (r : Except SvcError (Bool × DB)) : Bool :=
  match r with
  | Except.ok (true, _) => true
  | _ => false

namespace Examples

/-- A blank application row; concrete scenarios override the relevant
references. -/
def baseApp : ApplicationRow :=
  { id := 0, user_id := 0, resume_id := 0, resume_version_id := 0,
    customized_resume_version_id := none, cover_letter_id := none,
    cover_letter_version_id := none, customized_cover_letter_version_id := none,
    company := "", position := "" }

/-- Resume master 1 owned by user 1. -/
def resumeR : ResumeRow := { id := 1, user_id := 1, title := "R", is_default := false }

/-- Original version v1 of resume 1. -/
def versionV1 : ResumeVersionRow :=
  { id := 1, resume_id := 1, version := "v1", markdown_content := "A",
    job_description := none, is_original := true }

/-- Customized version "v2 - Acme" of resume 1. -/
def versionV2Acme : ResumeVersionRow :=
  { id := 2, resume_id := 1, version := "v2 - Acme", markdown_content := "B",
    job_description := some "jd", is_original := false }

/-- Non-original version v2 of resume 1 (plain label). -/
def versionV2 : ResumeVersionRow :=
  { id := 2, resume_id := 1, version := "v2", markdown_content := "B",
    job_description := none, is_original := false }

/-- Application 10 of user 1: protected reference to v1, owned reference to
version 2. -/
def appOwner : ApplicationRow :=
  { baseApp with
      id := 10
      user_id := 1
      resume_id := 1
      resume_version_id := 1
      customized_resume_version_id := some 2
      company := "Acme"
      position := "Dev" }

/-- Application 11 of user 1: protected reference straight to version 2,
no owned reference. -/
def appProtectedToV2 : ApplicationRow :=
  { baseApp with
      id := 11
      user_id := 1
      resume_id := 1
      resume_version_id := 2
      company := "Acme"
      position := "Dev2" }

/-- Store for the shared-version scenario: application 10 owns version 2
for cascade while application 11 protects the same version 2. -/
def dbShared : DB :=
  { resumes := [resumeR], resumeVersions := [versionV1, versionV2Acme],
    coverLetters := [], clVersions := [], applications := [appOwner, appProtectedToV2],
    nextId := 20 }

/-- Application 10 belonging to user 2 but referencing user 1's resume. -/
def appForeign : ApplicationRow :=
  { baseApp with
      id := 10
      user_id := 2
      resume_id := 1
      resume_version_id := 1
      company := "Acme"
      position := "Dev" }

/-- Store where the single blocking application belongs to another user, so
its individual deletion fails inside the forced master deletion. -/
def dbForeign : DB :=
  { resumes := [resumeR], resumeVersions := [versionV1], coverLetters := [],
    clVersions := [], applications := [appForeign], nextId := 20 }

/-- Application 10 of user 1 with a protected reference to version 2. -/
def appProtOnly : ApplicationRow :=
  { baseApp with
      id := 10
      user_id := 1
      resume_id := 1
      resume_version_id := 2
      company := "Acme"
      position := "Dev" }

/-- Store where the non-original version 2 is referenced only through a
protected `resume_version_id`. -/
def dbProtectedNonOriginal : DB :=
  { resumes := [resumeR], resumeVersions := [versionV1, versionV2],
    coverLetters := [], clVersions := [], applications := [appProtOnly], nextId := 20 }

/-- Application 10 of user 1 with a protected reference to the original
version 1. -/
def appProtToV1 : ApplicationRow :=
  { baseApp with
      id := 10
      user_id := 1
      resume_id := 1
      resume_version_id := 1
      company := "Acme"
      position := "Dev" }

/-- Store where the original version 1 is protected by application 10 and a
second version exists. -/
def dbOriginalRef : DB :=
  { resumes := [resumeR], resumeVersions := [versionV1, versionV2],
    coverLetters := [], clVersions := [], applications := [appProtToV1], nextId := 20 }

/-- Application 10 of user 1 whose owned reference points at the *original*
version 1. -/
def appOwnedOriginal : ApplicationRow :=
  { baseApp with
      id := 10
      user_id := 1
      resume_id := 1
      resume_version_id := 1
      customized_resume_version_id := some 1
      company := "Acme"
      position := "Dev" }

/-- Store where the owned-for-cascade reference targets an original
version. -/
def dbOwnedOriginal : DB :=
  { resumes := [resumeR], resumeVersions := [versionV1], coverLetters := [],
    clVersions := [], applications := [appOwnedOriginal], nextId := 20 }

/-- Cover letter master 1 owned by user 1. -/
def coverCL : CoverLetterRow := { id := 1, user_id := 1, title := "CL", is_default := false }

/-- Original version v1 of cover letter 1. -/
def clV1 : CoverLetterVersionRow :=
  { id := 1, cover_letter_id := 1, version := "v1", markdown_content := "A",
    job_description := none, is_original := true }

/-- Derived version v2 of cover letter 1. -/
def clV2 : CoverLetterVersionRow :=
  { id := 2, cover_letter_id := 1, version := "v2", markdown_content := "B",
    job_description := none, is_original := false }

/-- Cover letter store with two versions, none customized for "Acme". -/
def dbCoverTwo : DB :=
  { resumes := [], resumeVersions := [], coverLetters := [coverCL],
    clVersions := [clV1, clV2], applications := [], nextId := 20 }

/-- Application 10 holding a direct `cover_letter_id` master reference to
cover letter 1, with no version reference. -/
def appMasterRef : ApplicationRow :=
  { baseApp with
      id := 10
      user_id := 1
      resume_id := 5
      resume_version_id := 5
      cover_letter_id := some 1
      company := "Acme"
      position := "Dev" }

/-- Store where a link record references cover letter 1 only through the
direct master reference. -/
def dbMasterRef : DB :=
  { resumes := [], resumeVersions := [], coverLetters := [coverCL],
    clVersions := [clV1], applications := [appMasterRef], nextId := 20 }

/-- Store with one resume and its original version only, no customization
for any company yet. -/
def dbFresh : DB :=
  { resumes := [resumeR], resumeVersions := [versionV1], coverLetters := [],
    clVersions := [], applications := [], nextId := 20 }

/-- The empty store. -/
def emptyDB : DB :=
  { resumes := [], resumeVersions := [], coverLetters := [], clVersions := [],
    applications := [], nextId := 0 }

/-- A constant stand-in for the external AI generator. -/
def genFun : String → String → Option String → String := fun _ _ _ => "GEN"

/-- Two same-user blocking applications on resume 1, for the forced-deletion
success path. -/
def appBlockA : ApplicationRow :=
  { baseApp with
      id := 10
      user_id := 1
      resume_id := 1
      resume_version_id := 1
      company := "Acme"
      position := "Dev" }

/-- Second same-user blocking application on resume 1. -/
def appBlockB : ApplicationRow :=
  { baseApp with
      id := 11
      user_id := 1
      resume_id := 1
      resume_version_id := 1
      company := "Beta"
      position := "Eng" }

/-- Store with two deletable blocking applications on resume 1. -/
def dbTwoBlocking : DB :=
  { resumes := [resumeR], resumeVersions := [versionV1], coverLetters := [],
    clVersions := [], applications := [appBlockA, appBlockB], nextId := 20 }

/-- Application 10 of user 1 whose only owned-for-cascade reference is the
customized *cover letter* version 2, shared with nothing else. -/
def appOwnedCL : ApplicationRow :=
  { baseApp with
      id := 10
      user_id := 1
      resume_id := 1
      resume_version_id := 1
      cover_letter_id := some 1
      cover_letter_version_id := some 1
      customized_cover_letter_version_id := some 2
      company := "Acme"
      position := "Dev" }

/-- Store where the deleted application owns a customized cover letter
version that no other application references in any way. -/
def dbOwnedCL : DB :=
  { resumes := [resumeR], resumeVersions := [versionV1],
    coverLetters := [coverCL], clVersions := [clV1, clV2],
    applications := [appOwnedCL], nextId := 20 }

/-- Blocking application 11 on resume 1 belonging to user 2. -/
def appForeignB : ApplicationRow :=
  { baseApp with
      id := 11
      user_id := 2
      resume_id := 1
      resume_version_id := 1
      company := "Beta"
      position := "Eng" }

/-- Store with one deletable and one foreign blocking application on
resume 1: the forced deletion commits the first individual deletion and
then fails on the surviving foreign reference. -/
def dbMixedBlocking : DB :=
  { resumes := [resumeR], resumeVersions := [versionV1], coverLetters := [],
    clVersions := [], applications := [appBlockA, appForeignB], nextId := 20 }

/-- Store where application 10 owns the non-original version 2 and no
application holds a protected reference to it. -/
def dbOwnedFresh : DB :=
  { resumes := [resumeR], resumeVersions := [versionV1, versionV2Acme],
    coverLetters := [], clVersions := [], applications := [appOwner], nextId := 20 }

/-- Second resume master owned by user 1. -/
def resumeR2 : ResumeRow := { id := 2, user_id := 1, title := "R2", is_default := false }

/-- Original version of resume 2. -/
def versionV5R2 : ResumeVersionRow :=
  { id := 5, resume_id := 2, version := "v1", markdown_content := "C",
    job_description := none, is_original := true }

/-- Application 12 of user 1 on resume 2 whose owned customized reference
points at version 2 — the sole remaining version of resume 1. -/
def appCross : ApplicationRow :=
  { baseApp with
      id := 12
      user_id := 1
      resume_id := 2
      resume_version_id := 5
      customized_resume_version_id := some 2
      company := "Acme"
      position := "Dev" }

/-- Store where the customized version 2 is the only version of its
master, unprotected, and the cascade helper will delete it. -/
def dbSoleCustom : DB :=
  { resumes := [resumeR, resumeR2], resumeVersions := [versionV2Acme, versionV5R2],
    coverLetters := [], clVersions := [], applications := [appCross], nextId := 20 }

end Examples

end Resumator

namespace Resumator

namespace Examples

/-- Result of deleting application 10 of `dbOwnedOriginal` for real: the
application goes, the original version targeted by the owned reference is
left in place. -/
def resOwnedOriginal : ApplicationService.DeleteAppResult :=
  { success := true
    application_deleted := true
    customized_version_deleted := false
    customized_version_id := some 1
    original_resume_preserved := true
    original_version_preserved := true
    message := "Application for Acme - Dev deleted successfully."
    warnings := [] }

/-- Store after really deleting application 10 of `dbOwnedOriginal`. -/
def dbOwnedOriginalAfter : DB :=
  { resumes := [resumeR], resumeVersions := [versionV1], coverLetters := [],
    clVersions := [], applications := [], nextId := 20 }

/-- Result of the dry run on `dbOwnedOriginal`: it plans to delete version 1
even though that version is original and the real run will not delete it. -/
def resDryOwnedOriginal : ApplicationService.DeleteAppResult :=
  { success := true
    application_deleted := false
    customized_version_deleted := false
    customized_version_id := some 1
    original_resume_preserved := true
    original_version_preserved := true
    message := "Dry run completed. No data was deleted. Would delete customized version ID 1."
    warnings := [] }

/-- Result of really deleting application 10 of `dbShared`: the cascade of
version 2 fails at commit on the protected reference held by application
11, so the version survives — and no warning reports it. -/
def resShared : ApplicationService.DeleteAppResult :=
  { success := true
    application_deleted := true
    customized_version_deleted := false
    customized_version_id := some 2
    original_resume_preserved := true
    original_version_preserved := true
    message := "Application for Acme - Dev deleted successfully."
    warnings := [] }

/-- Store after really deleting application 10 of `dbShared`: both versions
survive. -/
def dbSharedAfter : DB :=
  { resumes := [resumeR], resumeVersions := [versionV1, versionV2Acme],
    coverLetters := [], clVersions := [], applications := [appProtectedToV2], nextId := 20 }

/-- Result of the dry run on `dbOwnedFresh`. -/
def resFreshDry : ApplicationService.DeleteAppResult :=
  { success := true
    application_deleted := false
    customized_version_deleted := false
    customized_version_id := some 2
    original_resume_preserved := true
    original_version_preserved := true
    message := "Dry run completed. No data was deleted. Would delete customized version ID 2."
    warnings := [] }

/-- Result of really deleting application 10 of `dbOwnedFresh`: version 2
is cascade-deleted. -/
def resFreshReal : ApplicationService.DeleteAppResult :=
  { success := true
    application_deleted := true
    customized_version_deleted := true
    customized_version_id := some 2
    original_resume_preserved := true
    original_version_preserved := true
    message := "Application for Acme - Dev deleted successfully. Customized resume version was also deleted."
    warnings := [] }

/-- Deletion preview for application 10 of `dbOwnedFresh`. -/
def pvFresh : ApplicationService.DeletionPreview :=
  { application_id := 10, will_delete_customized := some 2,
    will_preserve_customized := none, warnings := [] }

/-- Store after really deleting application 10 of `dbOwnedFresh`. -/
def dbOwnedFreshAfter : DB :=
  { resumes := [resumeR], resumeVersions := [versionV1], coverLetters := [],
    clVersions := [], applications := [], nextId := 20 }

/-- Result of really deleting application 10 of `dbOwnedCL`: the
application goes, the owned customized cover letter version is never
touched. -/
def resOwnedCL : ApplicationService.DeleteAppResult :=
  { success := true
    application_deleted := true
    customized_version_deleted := false
    customized_version_id := none
    original_resume_preserved := true
    original_version_preserved := true
    message := "Application for Acme - Dev deleted successfully."
    warnings := [] }

/-- Store after really deleting application 10 of `dbOwnedCL`. -/
def dbOwnedCLAfter : DB :=
  { resumes := [resumeR], resumeVersions := [versionV1],
    coverLetters := [coverCL], clVersions := [clV1, clV2],
    applications := [], nextId := 20 }

/-- Store after the failed forced master deletion on `dbMixedBlocking`:
application 10 is gone (its individual deletion was committed by the
loop), while the master, its version and the foreign application all
survive the failed final commit. -/
def dbMixedAfter : DB :=
  { resumes := [resumeR], resumeVersions := [versionV1], coverLetters := [],
    clVersions := [], applications := [appForeignB], nextId := 20 }

/-- Result of the forced master deletion on `dbTwoBlocking`. -/
def resTwoBlocking : ResumeService.DeleteResumeResult :=
  { success := true
    resume_deleted := true
    applications_deleted := 2
    versions_deleted := 1
    message := "Deleted resume R, 2 application(s), and 1 version(s)." }

/-- Store after the forced master deletion on `dbTwoBlocking`. -/
def dbTwoBlockingAfter : DB :=
  { resumes := [], resumeVersions := [], coverLetters := [], clVersions := [],
    applications := [], nextId := 20 }

/-- Dependency check result for the non-original version 2 of
`dbProtectedNonOriginal`: deletable although a protected reference points at
it. -/
def depsProtectedNonOriginal : ResumeService.VersionDeps :=
  { can_delete := true
    application_count := 1
    is_original := false
    is_last_version := false
    message := "Version can be safely deleted." }

/-- Dependency check result for the protected original version 1 of
`dbOriginalRef`. -/
def depsOriginalRef : ResumeService.VersionDeps :=
  { can_delete := false
    application_count := 1
    is_original := true
    is_last_version := false
    message := "Cannot delete original version. It is referenced by 1 application(s) as their original version." }

/-- The customized resume version generated for Acme on `dbFresh`. -/
def generatedAcme : ResumeVersionRow :=
  { id := 20, resume_id := 1, version := "v2 - Acme", markdown_content := "GEN",
    job_description := some "jd", is_original := false }

/-- Store after the first Acme customization on `dbFresh`. -/
def dbFreshAfter : DB :=
  { resumes := [resumeR], resumeVersions := [versionV1, generatedAcme],
    coverLetters := [], clVersions := [], applications := [], nextId := 21 }

/-- The customized cover letter version generated for Acme on
`dbCoverTwo`: its label is the fixed "v2 - Acme" although the master
already has two versions. -/
def clGeneratedAcme : CoverLetterVersionRow :=
  { id := 20, cover_letter_id := 1, version := "v2 - Acme",
    markdown_content := "GEN", job_description := some "jd", is_original := false }

/-- Store after the Acme cover letter customization on `dbCoverTwo`. -/
def dbCoverTwoAfter : DB :=
  { resumes := [], resumeVersions := [], coverLetters := [coverCL],
    clVersions := [clV1, clV2, clGeneratedAcme], applications := [], nextId := 21 }

/-- The master cover letter row created on the empty store. -/
def clCreated : CoverLetterRow := { id := 0, user_id := 1, title := "T", is_default := false }

/-- The initial version row created for `clCreated` with content "hello". -/
def clCreatedV1 : CoverLetterVersionRow :=
  { id := 1, cover_letter_id := 0, version := "v1", markdown_content := "hello",
    job_description := none, is_original := true }

/-- Store after creating a cover letter with content "hello" on the empty
store. -/
def dbEmptyAfterContent : DB :=
  { resumes := [], resumeVersions := [], coverLetters := [clCreated],
    clVersions := [clCreatedV1], applications := [], nextId := 2 }

/-- Store after creating a cover letter with no content on the empty store:
the master exists with zero versions. -/
def dbEmptyAfterNone : DB :=
  { resumes := [], resumeVersions := [], coverLetters := [clCreated],
    clVersions := [], applications := [], nextId := 1 }

/-- Dependency check result for cover letter 1 of `dbMasterRef`: deletable
although application 10 holds a direct master reference to it. -/
def depsMasterRef : CoverLetterService.CoverLetterDeps :=
  { can_delete := true
    application_count := 0
    message := "Cover letter can be safely deleted. No applications depend on it." }

end Examples

end Resumator

namespace Resumator

theorem darv_shape (db : DB) (u vid : Nat) :
    (ResumeService.delete_application_resume_version db u vid).2.resumes = db.resumes ∧
    (ResumeService.delete_application_resume_version db u vid).2.applications = db.applications ∧
    (ResumeService.delete_application_resume_version db u vid).2.coverLetters = db.coverLetters ∧
    (ResumeService.delete_application_resume_version db u vid).2.clVersions = db.clVersions := by
  unfold ResumeService.delete_application_resume_version
  split
  · simp
  · split <;> simp

theorem delete_application_real_shape (db : DB) (u aid : Nat)
    (res : ApplicationService.DeleteAppResult) (db2 : DB)
    (h : ApplicationService.delete_application db u aid false = Except.ok (res, db2)) :
    (db2.resumeVersions = db.resumeVersions ∨
      ∃ cvid, db2.resumeVersions =
        (ResumeService.delete_application_resume_version db u cvid).2.resumeVersions) ∧
    db2.applications = db.applications.filter (fun a => a.id != aid) ∧
    db2.resumes = db.resumes ∧ db2.coverLetters = db.coverLetters ∧
    db2.clVersions = db.clVersions ∧ res.success = true := by
  unfold ApplicationService.delete_application at h
  cases hga : ApplicationService.get_application db u aid with
  | error e => rw [hga] at h; simp at h
  | ok app =>
    rw [hga] at h
    simp only [Bool.false_eq_true, if_false] at h
    cases hc : app.customized_resume_version_id with
    | none =>
      simp only [hc] at h
      injection h with h
      injection h with h1 h2
      subst h2
      refine ⟨Or.inl rfl, rfl, rfl, rfl, rfl, ?_⟩
      rw [← h1]
    | some cvid =>
      simp only [hc] at h
      by_cases hcnt :
          (db.applications.filter (fun a =>
            a.id != aid && a.customized_resume_version_id == some cvid)).length = 0
      · rw [hcnt] at h
        simp only [Nat.lt_irrefl, if_false, if_true, beq_self_eq_true] at h
        injection h with h
        injection h with h1 h2
        subst h2
        refine ⟨Or.inr ⟨cvid, rfl⟩, ?_, (darv_shape db u cvid).1, (darv_shape db u cvid).2.2.1,
          (darv_shape db u cvid).2.2.2, ?_⟩
        · show (ResumeService.delete_application_resume_version db u cvid).2.applications.filter _ = _
          rw [(darv_shape db u cvid).2.1]
        · rw [← h1]
      · have hpos : 0 <
            (db.applications.filter (fun a =>
              a.id != aid && a.customized_resume_version_id == some cvid)).length :=
          Nat.pos_of_ne_zero hcnt
        have hbeq : ((db.applications.filter (fun a =>
            a.id != aid && a.customized_resume_version_id == some cvid)).length == 0) = false := by
          simp [hcnt]
        simp only [hpos, hbeq, if_true, Bool.false_eq_true, if_false] at h
        injection h with h
        injection h with h1 h2
        subst h2
        exact ⟨Or.inl rfl, rfl, rfl, rfl, rfl, by rw [← h1]⟩

theorem darv_preserves_originals (db : DB) (u vid : Nat) (v : ResumeVersionRow)
    (hnodup : (db.resumeVersions.map (fun w => w.id)).Nodup)
    (hv : v ∈ db.resumeVersions) (ho : v.is_original = true) :
    v ∈ (ResumeService.delete_application_resume_version db u vid).2.resumeVersions := by
  unfold ResumeService.delete_application_resume_version
  split
  · exact hv
  next version hfind =>
    split
    · exact hv
    have hmem := List.mem_of_find?_eq_some hfind
    have hp := List.find?_some hfind
    simp only [Bool.and_eq_true, beq_iff_eq] at hp
    refine List.mem_filter.mpr ⟨hv, ?_⟩
    simp only [bne_iff_ne, ne_eq, decide_eq_true_eq]
    intro heq
    have hvv : v = version := List.inj_on_of_nodup_map hnodup hv hmem heq
    rw [hvv] at ho
    rw [hp.1.2] at ho
    exact Bool.true_eq_false.mp ho.symm

/-- C10: the cascade path of a LinkRecord deletion never deletes an original
version: the cascade helper invoked on the id of an original version deletes
nothing and reports `false`, and any version with `is_original = true`
present before `delete_application(dry_run := false)` is still present in
the resulting store. -/
theorem C10_cascade_preserves_originals (db : DB) (u aid : Nat)
    (res : ApplicationService.DeleteAppResult) (db2 : DB) (v : ResumeVersionRow)
    (hnodup : (db.resumeVersions.map (fun w => w.id)).Nodup)
    (hv : v ∈ db.resumeVersions) (ho : v.is_original = true)
    (h : ApplicationService.delete_application db u aid false = Except.ok (res, db2)) :
    ResumeService.delete_application_resume_version db u v.id = (false, db) ∧
    v ∈ db2.resumeVersions := by
  constructor
  · unfold ResumeService.delete_application_resume_version
    split
    · rfl
    next version hfind =>
      exfalso
      have hmem := List.mem_of_find?_eq_some hfind
      have hp := List.find?_some hfind
      simp only [Bool.and_eq_true, beq_iff_eq] at hp
      have hvv : version = v := List.inj_on_of_nodup_map hnodup hmem hv hp.1.1
      rw [hvv] at hp
      rw [ho] at hp
      simp at hp
  · rcases (delete_application_real_shape db u aid res db2 h).1 with he | ⟨cvid, he⟩
    · rw [he]; exact hv
    · rw [he]; exact darv_preserves_originals db u cvid v hnodup hv ho

theorem delete_application_real_ok (db : DB) (u aid : Nat)
    (h : (db.applications.find? (fun a => a.id == aid && a.user_id == u)).isSome = true) :
    ∃ res db2, ApplicationService.delete_application db u aid false = Except.ok (res, db2) := by
  unfold ApplicationService.delete_application ApplicationService.get_application
  obtain ⟨app, happ⟩ := Option.isSome_iff_exists.mp h
  rw [happ]
  exact ⟨_, _, rfl⟩

theorem delete_applications_loop_cons (u : Nat) (a : ApplicationRow)
    (rest : List ApplicationRow) (db : DB) (c : Nat) :
    ResumeService.delete_applications_loop u (a :: rest) db c =
      match ApplicationService.delete_application db u a.id false with
      | Except.ok (res, db1) =>
        ResumeService.delete_applications_loop u rest db1 (if res.success then c + 1 else c)
      | Except.error _ => ResumeService.delete_applications_loop u rest db c := rfl

theorem delete_applications_loop_spec (u : Nat) :
    ∀ (apps : List ApplicationRow) (db : DB) (c : Nat),
    (∀ a ∈ apps, ∃ row ∈ db.applications, row.id = a.id ∧ row.user_id = u) →
    (apps.map (fun a => a.id)).Nodup →
    (ResumeService.delete_applications_loop u apps db c).2 = c + apps.length ∧
    (ResumeService.delete_applications_loop u apps db c).1.resumes = db.resumes ∧
    (∀ b ∈ (ResumeService.delete_applications_loop u apps db c).1.applications,
      b ∈ db.applications ∧ ∀ a ∈ apps, b.id ≠ a.id) := by
  intro apps
  induction apps with
  | nil =>
    intro db c _ _
    refine ⟨by simp [ResumeService.delete_applications_loop], rfl, ?_⟩
    intro b hb
    exact ⟨hb, by intro a ha; exact absurd ha (List.not_mem_nil a)⟩
  | cons a rest ih =>
    intro db c hex hnodup
    obtain ⟨row, hrowmem, hrowid, hrowuser⟩ := hex a (List.mem_cons_self a rest)
    have hfind : (db.applications.find? (fun x => x.id == a.id && x.user_id == u)).isSome = true := by
      refine List.find?_isSome.mpr ⟨row, hrowmem, ?_⟩
      simp [hrowid, hrowuser]
    obtain ⟨res, db2, hda⟩ := delete_application_real_ok db u a.id hfind
    have hsh := delete_application_real_shape db u a.id res db2 hda
    have hstep : ResumeService.delete_applications_loop u (a :: rest) db c =
        ResumeService.delete_applications_loop u rest db2 (c + 1) := by
      rw [delete_applications_loop_cons, hda]
      simp only [hsh.2.2.2.2.2, if_true]
    have hmap : ((a :: rest).map (fun x => x.id)) = a.id :: rest.map (fun x => x.id) := by simp
    rw [hmap] at hnodup
    obtain ⟨hnotin, hnodupR⟩ := List.nodup_cons.mp hnodup
    have hexR : ∀ b ∈ rest, ∃ row ∈ db2.applications, row.id = b.id ∧ row.user_id = u := by
      intro b hb
      obtain ⟨rowB, hm, hid, hu⟩ := hex b (List.mem_cons_of_mem a hb)
      have hbne : b.id ≠ a.id := by
        intro he
        exact hnotin (he ▸ List.mem_map_of_mem (fun x => x.id) hb)
      refine ⟨rowB, ?_, hid, hu⟩
      rw [hsh.2.1]
      refine List.mem_filter.mpr ⟨hm, ?_⟩
      simp only [bne_iff_ne, ne_eq, hid]
      exact hbne
    obtain ⟨ihc, ihr, ihm⟩ := ih db2 (c + 1) hexR hnodupR
    refine ⟨?_, ?_, ?_⟩
    · rw [hstep, ihc]
      simp [List.length_cons]
      omega
    · rw [hstep, ihr, hsh.2.2.1]
    · intro b hb
      rw [hstep] at hb
      obtain ⟨hbdb2, hrest⟩ := ihm b hb
      rw [hsh.2.1] at hbdb2
      obtain ⟨hbdb, hbne⟩ := List.mem_filter.mp hbdb2
      have hbne2 : b.id ≠ a.id := by simpa using hbne
      refine ⟨hbdb, ?_⟩
      intro x hx
      rcases List.mem_cons.mp hx with hxa | hxr
      · rw [hxa]; exact hbne2
      · exact hrest x hxr

theorem darv_versions_subset (db : DB) (u vid : Nat) :
    ∀ v ∈ (ResumeService.delete_application_resume_version db u vid).2.resumeVersions,
      v ∈ db.resumeVersions := by
  unfold ResumeService.delete_application_resume_version
  split
  · exact fun v hv => hv
  · split
    · exact fun v hv => hv
    · exact fun v hv => (List.mem_filter.mp hv).1

theorem delete_applications_loop_resumes_all (u : Nat) :
    ∀ (apps : List ApplicationRow) (db : DB) (c : Nat),
    (ResumeService.delete_applications_loop u apps db c).1.resumes = db.resumes := by
  intro apps
  induction apps with
  | nil => intro db c; rfl
  | cons a rest ih =>
    intro db c
    rw [delete_applications_loop_cons]
    cases hda : ApplicationService.delete_application db u a.id false with
    | ok p =>
      rw [ih p.2]
      exact (delete_application_real_shape db u a.id p.1 p.2 (by rw [hda])).2.2.1
    | error e => exact ih db c

theorem delete_applications_loop_versions_subset (u : Nat) :
    ∀ (apps : List ApplicationRow) (db : DB) (c : Nat),
    ∀ v ∈ (ResumeService.delete_applications_loop u apps db c).1.resumeVersions,
      v ∈ db.resumeVersions := by
  intro apps
  induction apps with
  | nil => intro db c v hv; exact hv
  | cons a rest ih =>
    intro db c v hv
    rw [delete_applications_loop_cons] at hv
    cases hda : ApplicationService.delete_application db u a.id false with
    | ok p =>
      rw [hda] at hv
      have hv2 := ih p.2 _ v hv
      rcases (delete_application_real_shape db u a.id p.1 p.2 (by rw [hda])).1 with
        he | ⟨cvid, he⟩
      · rw [he] at hv2; exact hv2
      · rw [he] at hv2; exact darv_versions_subset db u cvid v hv2
    | error e =>
      rw [hda] at hv
      exact ih db c v hv

/-- C2 (amended): forced master deletion is best-effort, not atomic.  Each
blocking LinkRecord is deleted in its own committed transaction and a
failing individual deletion is skipped, so already-deleted LinkRecords stay
committed; when any blocking LinkRecord survives the loop, the final master
deletion fails at commit and the operation raises `ValidationError` with
the master and its versions intact (but the per-item deletions persist).
When every blocking LinkRecord belongs to the caller, has a distinct id,
and references of applications to versions of this master come only from
its own applications, the master and all its versions are deleted and
`applications_deleted` reports the full count. -/
theorem C2_forced_delete_best_effort (db : DB) (u rid : Nat)
    (resume : ResumeRow) (res : ResumeService.DeleteResumeResult) (db2 : DB)
    (hr : ResumeService.get_resume db u rid = Except.ok resume)
    (hown : ∀ a ∈ db.applications, a.resume_id = rid → a.user_id = u)
    (hnodup : ((db.applications.filter (fun a => a.resume_id == rid)).map
      (fun a => a.id)).Nodup)
    (hcons : ∀ a ∈ db.applications, ∀ v ∈ db.resumeVersions,
      v.resume_id = rid → a.resume_version_id = v.id → a.resume_id = rid)
    (hdel : ResumeService.delete_resume_with_applications db u rid true =
      (db2, Except.ok res))
    (dbB : DB) (uB ridB : Nat) (eB : SvcError)
    (hfail : (ResumeService.delete_resume_with_applications dbB uB ridB true).2 =
      Except.error eB) :
    res.success = true ∧ res.resume_deleted = true ∧
    res.applications_deleted =
      (db.applications.filter (fun a => a.resume_id == rid)).length ∧
    (∀ r ∈ db2.resumes, r.id ≠ resume.id) ∧
    (∀ v ∈ db2.resumeVersions, v.resume_id ≠ resume.id) ∧
    (∀ a ∈ db2.applications, a.resume_id ≠ rid) ∧
    (ResumeService.delete_resume_with_applications dbB uB ridB true).1.resumes =
      dbB.resumes := by
  have hrid : resume.id = rid := by
    unfold ResumeService.get_resume at hr
    cases hfind : db.resumes.find? (fun r => r.id == rid && r.user_id == u) with
    | none => rw [hfind] at hr; exact absurd hr (by simp)
    | some r0 =>
      rw [hfind] at hr
      injection hr with hr
      have hp := List.find?_some hfind
      simp only [Bool.and_eq_true, beq_iff_eq] at hp
      rw [← hr]
      exact hp.1
  obtain ⟨dep, hdep⟩ : ∃ dep, ResumeService.check_resume_dependencies db u rid =
      Except.ok dep := by
    unfold ResumeService.check_resume_dependencies
    rw [hr]
    dsimp only
    split <;> exact ⟨_, rfl⟩
  unfold ResumeService.delete_resume_with_applications at hdel
  rw [hr, hdep] at hdel
  simp only [Bool.true_eq_false, false_and, if_false] at hdel
  have hex : ∀ a ∈ db.applications.filter (fun a => a.resume_id == rid),
      ∃ row ∈ db.applications, row.id = a.id ∧ row.user_id = u := by
    intro a ha
    obtain ⟨hmem, hpa⟩ := List.mem_filter.mp ha
    exact ⟨a, hmem, rfl, hown a hmem (by simpa using hpa)⟩
  obtain ⟨hcount, hresumes, hmems⟩ :=
    delete_applications_loop_spec u (db.applications.filter (fun a => a.resume_id == rid))
      db 0 hex hnodup
  have hguard : ((ResumeService.delete_applications_loop u
      (db.applications.filter (fun a => a.resume_id == rid)) db 0).1.applications.any
      (fun a => a.resume_id == resume.id ||
        (ResumeService.delete_applications_loop u
          (db.applications.filter (fun a => a.resume_id == rid)) db 0).1.resumeVersions.any
          (fun v => v.resume_id == resume.id && a.resume_version_id == v.id))) = false := by
    rw [List.any_eq_false]
    intro a ha
    obtain ⟨hadb, hids⟩ := hmems a ha
    have hanot : a.resume_id ≠ rid := by
      intro heq
      exact hids a (List.mem_filter.mpr ⟨hadb, by simpa using heq⟩) rfl
    simp only [Bool.or_eq_true, Bool.and_eq_true, beq_iff_eq, List.any_eq_true, not_or]
    refine ⟨by rw [hrid]; exact hanot, ?_⟩
    rintro ⟨v, hv, hvr, hav⟩
    have hvdb := delete_applications_loop_versions_subset u
      (db.applications.filter (fun a => a.resume_id == rid)) db 0 v hv
    exact hanot (hcons a hadb v hvdb (by rw [← hrid]; exact hvr) hav)
  rw [hguard] at hdel
  simp only [Bool.false_eq_true, if_false] at hdel
  injection hdel with h2 h1
  injection h1 with h1
  subst h2
  refine ⟨by rw [← h1], by rw [← h1], ?_, ?_, ?_, ?_, ?_⟩
  · rw [← h1]
    simpa using hcount
  · intro r hr2
    obtain ⟨_, hpr⟩ := List.mem_filter.mp hr2
    simpa using hpr
  · intro v hv2
    obtain ⟨_, hpv⟩ := List.mem_filter.mp hv2
    simpa using hpv
  · intro a ha2
    obtain ⟨hadb, hids⟩ := hmems a ha2
    intro hrid2
    exact hids a (List.mem_filter.mpr ⟨hadb, by simpa using hrid2⟩) rfl
  · revert hfail
    unfold ResumeService.delete_resume_with_applications
    cases hgB : ResumeService.get_resume dbB uB ridB with
    | error e =>
      intro hfail
      rfl
    | ok resumeB =>
      cases hdB : ResumeService.check_resume_dependencies dbB uB ridB with
      | error e =>
        intro hfail
        rfl
      | ok depB =>
        dsimp only
        simp only [Bool.true_eq_false, false_and, if_false]
        intro hfail
        split at hfail
        next hcond =>
          rw [if_pos hcond]
          exact delete_applications_loop_resumes_all uB _ dbB 0
        next hcond =>
          simp at hfail

/-- C1 (amended): `delete_application` cascades only the owned customized
resume version.  With the owned reference pointing at an existing
non-original version owned by the caller, the version is deleted exactly
when no *other* application holds it as its owned
`customized_resume_version_id` and, additionally, no application at all
holds it as its protected `resume_version_id` (otherwise the delete fails
at commit on the RESTRICT constraint and the version survives, with no
warning reported).  When another owned reference exists the version
survives and a warning is present.  Owned customized cover letter versions
are never cascaded. -/
theorem C1_owned_reference_cascade (db : DB) (u aid cvid : Nat)
    (app : ApplicationRow) (v0 : ResumeVersionRow)
    (res : ApplicationService.DeleteAppResult) (db2 : DB)
    (h1 : ApplicationService.get_application db u aid = Except.ok app)
    (h2 : app.customized_resume_version_id = some cvid)
    (h3 : db.resumeVersions.find? (fun v =>
        v.id == cvid && v.is_original == false &&
        db.resumes.any (fun r => r.id == v.resume_id && r.user_id == u)) = some v0)
    (h4 : ApplicationService.delete_application db u aid false = Except.ok (res, db2)) :
    ((db.applications.filter (fun a =>
        a.id != aid && a.customized_resume_version_id == some cvid)).length = 0 →
      (db.applications.any (fun a => a.resume_version_id == v0.id)) = false →
      res.customized_version_deleted = true ∧ res.warnings = [] ∧
      db2.resumeVersions = db.resumeVersions.filter (fun w => w.id != v0.id)) ∧
    ((db.applications.filter (fun a =>
        a.id != aid && a.customized_resume_version_id == some cvid)).length = 0 →
      (db.applications.any (fun a => a.resume_version_id == v0.id)) = true →
      res.customized_version_deleted = false ∧ res.warnings = [] ∧
      db2.resumeVersions = db.resumeVersions) ∧
    (0 < (db.applications.filter (fun a =>
        a.id != aid && a.customized_resume_version_id == some cvid)).length →
      res.customized_version_deleted = false ∧ res.warnings ≠ [] ∧
      db2.resumeVersions = db.resumeVersions) ∧
    db2.applications = db.applications.filter (fun a => a.id != aid) ∧
    db2.clVersions = db.clVersions := by
  unfold ApplicationService.delete_application at h4
  rw [h1] at h4
  simp only [Bool.false_eq_true, if_false, h2] at h4
  by_cases hcnt :
      (db.applications.filter (fun a =>
        a.id != aid && a.customized_resume_version_id == some cvid)).length = 0
  · rw [hcnt] at h4
    simp only [Nat.lt_irrefl, if_false, if_true, beq_self_eq_true] at h4
    by_cases hprot : (db.applications.any (fun a => a.resume_version_id == v0.id)) = true
    · have hhelper : ResumeService.delete_application_resume_version db u cvid =
          (false, db) := by
        unfold ResumeService.delete_application_resume_version
        rw [h3]
        simp [hprot]
      rw [hhelper] at h4
      injection h4 with h4
      injection h4 with ha hb
      subst hb
      refine ⟨fun _ hpF => absurd (hprot.symm.trans hpF) (by simp),
        fun _ _ => ⟨by rw [← ha], by rw [← ha], rfl⟩,
        fun hpos => absurd hcnt (by omega), rfl, rfl⟩
    · have hprotF : (db.applications.any (fun a => a.resume_version_id == v0.id)) = false :=
        Bool.not_eq_true _ ▸ Bool.of_not_eq_true hprot
      have hhelper : ResumeService.delete_application_resume_version db u cvid =
          (true, { db with
            resumeVersions := db.resumeVersions.filter (fun w => w.id != v0.id) }) := by
        unfold ResumeService.delete_application_resume_version
        rw [h3]
        simp [hprotF]
      rw [hhelper] at h4
      injection h4 with h4
      injection h4 with ha hb
      subst hb
      refine ⟨fun _ _ => ⟨by rw [← ha], by rw [← ha], rfl⟩,
        fun _ hpT => absurd (hprotF.symm.trans hpT) (by simp),
        fun hpos => absurd hcnt (by omega), rfl, rfl⟩
  · have hpos : 0 < (db.applications.filter (fun a =>
        a.id != aid && a.customized_resume_version_id == some cvid)).length :=
      Nat.pos_of_ne_zero hcnt
    have hbeq : ((db.applications.filter (fun a =>
        a.id != aid && a.customized_resume_version_id == some cvid)).length == 0) = false := by
      simp [hcnt]
    simp only [hpos, hbeq, if_true, Bool.false_eq_true, if_false] at h4
    injection h4 with h4
    injection h4 with ha hb
    subst hb
    refine ⟨fun hz => absurd hz hcnt, fun hz => absurd hz hcnt,
      fun _ => ⟨by rw [← ha], ?_, rfl⟩, rfl, rfl⟩
    rw [← ha]
    simp

/-- C8 (amended): dry-run, preview and real deletion agree when the owned
reference points at an existing non-original version owned by the caller
that no application holds as its protected `resume_version_id`: the dry run
mutates nothing, its plan equals the previews plan, and the real run
deletes exactly the planned version set.  (With an original, missing,
foreign, or still-protected target the plan over-reports: the real delete
leaves the version in place.) -/
theorem C8_dry_run_parity (db : DB) (u aid cvid : Nat) (app : ApplicationRow)
    (v0 : ResumeVersionRow) (rd rr : ApplicationService.DeleteAppResult)
    (pv : ApplicationService.DeletionPreview) (dbD db2 : DB)
    (h1 : ApplicationService.get_application db u aid = Except.ok app)
    (h2 : app.customized_resume_version_id = some cvid)
    (h3p : db.resumeVersions.find? (fun v => v.id == cvid) = some v0)
    (h3d : db.resumeVersions.find? (fun v =>
        v.id == cvid && v.is_original == false &&
        db.resumes.any (fun r => r.id == v.resume_id && r.user_id == u)) = some v0)
    (hnoprot : (db.applications.any (fun a => a.resume_version_id == v0.id)) = false)
    (hdry : ApplicationService.delete_application db u aid true = Except.ok (rd, dbD))
    (hreal : ApplicationService.delete_application db u aid false = Except.ok (rr, db2))
    (hprev : ApplicationService.get_application_deletion_preview db u aid = Except.ok pv) :
    dbD = db ∧
    rd.customized_version_id = pv.will_delete_customized ∧
    (rr.customized_version_deleted = true ↔ rd.customized_version_id = some cvid) ∧
    db2.resumeVersions =
      db.resumeVersions.filter (fun w => (some w.id != rd.customized_version_id)) := by
  have hv0id : v0.id = cvid := by
    have hp := List.find?_some h3p
    simpa using hp
  have hhelper : ResumeService.delete_application_resume_version db u cvid =
      (true, { db with resumeVersions := db.resumeVersions.filter (fun w => w.id != v0.id) }) := by
    unfold ResumeService.delete_application_resume_version
    rw [h3d]
    simp [hnoprot]
  unfold ApplicationService.delete_application at hdry hreal
  unfold ApplicationService.get_application_deletion_preview at hprev
  rw [h1] at hdry hreal hprev
  simp only [if_true, h2, h3p] at hdry hreal hprev
  simp only [Bool.false_eq_true, if_false] at hreal
  rw [hv0id] at hprev
  by_cases hcnt :
      (db.applications.filter (fun a =>
        a.id != aid && a.customized_resume_version_id == some cvid)).length = 0
  · rw [hcnt] at hdry hreal hprev
    simp only [Nat.lt_irrefl, if_false, if_true, beq_self_eq_true] at hdry hreal hprev
    rw [hhelper] at hreal
    injection hdry with hdry
    injection hdry with hd1 hd2
    injection hreal with hreal
    injection hreal with hr1 hr2
    injection hprev with hp1
    subst hd2
    subst hr2
    have hrdc : rd.customized_version_id = some cvid := by rw [← hd1]
    have hrrd : rr.customized_version_deleted = true := by rw [← hr1]
    have hpvw : pv.will_delete_customized = some cvid := by rw [← hp1]
    refine ⟨rfl, ?_, ?_, ?_⟩
    · rw [hrdc, hpvw]
    · rw [hrrd, hrdc]
      simp
    · rw [hrdc]
      exact (List.filter_congr (fun x _ => by rw [hv0id]; simp [bne])).symm
  · have hpos : 0 < (db.applications.filter (fun a =>
        a.id != aid && a.customized_resume_version_id == some cvid)).length :=
      Nat.pos_of_ne_zero hcnt
    have hbeq : ((db.applications.filter (fun a =>
        a.id != aid && a.customized_resume_version_id == some cvid)).length == 0) = false := by
      simp [hcnt]
    simp only [hpos, hbeq, if_true, Bool.false_eq_true, if_false] at hdry hreal hprev
    injection hdry with hdry
    injection hdry with hd1 hd2
    injection hreal with hreal
    injection hreal with hr1 hr2
    injection hprev with hp1
    subst hd2
    subst hr2
    have hrdc : rd.customized_version_id = none := by rw [← hd1]
    have hrrd : rr.customized_version_deleted = false := by rw [← hr1]
    have hpvw : pv.will_delete_customized = none := by rw [← hp1]
    refine ⟨rfl, ?_, ?_, ?_⟩
    · rw [hrdc, hpvw]
    · rw [hrrd, hrdc]
      simp
    · rw [hrdc]
      symm
      refine List.filter_eq_self.mpr ?_
      intro a _
      simp [bne]

/-- C3 (amended): for a resume version, `check_version_dependencies`
returns `canDelete = true` exactly when the version is not the only version
of its master, no protected `resume_version_id` reference blocks it *when it
is original* (protected references to non-original versions do not block),
and no application holds it as its owned `customized_resume_version_id`.
Cover letter references are handled by the cover letter service, not here. -/
theorem C3_version_dependency_rule (db : DB) (u rid vid : Nat) (r0 : ResumeRow)
    (version : ResumeVersionRow) (deps : ResumeService.VersionDeps)
    (hr : ResumeService.get_resume db u rid = Except.ok r0)
    (hv : db.resumeVersions.find? (fun v => v.id == vid && v.resume_id == rid) = some version)
    (hd : ResumeService.check_version_dependencies db u rid vid = Except.ok deps) :
    deps.can_delete = true ↔
      (1 < (db.resumeVersions.filter (fun v => v.resume_id == rid)).length ∧
       (version.is_original = true →
         (db.applications.filter (fun a => a.resume_version_id == vid)).length = 0) ∧
       (db.applications.filter (fun a =>
         a.customized_resume_version_id == some vid)).length = 0) := by
  unfold ResumeService.check_version_dependencies at hd
  rw [hr, hv] at hd
  dsimp only at hd
  split at hd
  · injection hd with hd
    rw [← hd]
    simp only [Bool.false_eq_true, false_iff]
    omega
  · split at hd
    · injection hd with hd
      rw [← hd]
      simp only [Bool.false_eq_true, false_iff]
      rename_i hc1 hc2
      intro hcontra
      have ha := hcontra.2.1 hc2.1
      have hb := hc2.2
      omega
    · split at hd
      · injection hd with hd
        rw [← hd]
        simp only [Bool.false_eq_true, false_iff]
        rename_i hc1 hc2 hc3
        intro hcontra
        omega
      · injection hd with hd
        rw [← hd]
        simp only [true_iff]
        rename_i hc1 hc2 hc3
        refine ⟨by omega, ?_, by omega⟩
        intro horig
        by_contra hne
        exact hc2 ⟨horig, Nat.pos_of_ne_zero hne⟩

/-- C4 (amended): a blocked version deletion fails with `ValidationError`
carrying the dependency checks message (the code base defines no
conflict-style error); when the check allows deletion the row is deleted
exactly if no application still holds it as its protected
`resume_version_id` (otherwise the commit fails and the call returns false
with the row intact); a row is only ever deleted under `canDelete = true`;
and an original version with a protected reference is always blocked by the
check. -/
theorem C4_original_protection_validation (db : DB) (u rid vid : Nat)
    (version : ResumeVersionRow) (deps : ResumeService.VersionDeps)
    (hv : db.resumeVersions.find? (fun v => v.id == vid && v.resume_id == rid) = some version)
    (hd : ResumeService.check_version_dependencies db u rid vid = Except.ok deps) :
    (deps.can_delete = false →
      ResumeService.delete_resume_version db u rid vid =
        Except.error (SvcError.validation deps.message)) ∧
    (deps.can_delete = true →
      (db.applications.any (fun a => a.resume_version_id == version.id)) = false →
      ResumeService.delete_resume_version db u rid vid =
        Except.ok (true, { db with
          resumeVersions := db.resumeVersions.filter (fun w => w.id != version.id) })) ∧
    (deps.can_delete = true →
      (db.applications.any (fun a => a.resume_version_id == version.id)) = true →
      ResumeService.delete_resume_version db u rid vid = Except.ok (false, db)) ∧
    (deletesRow (ResumeService.delete_resume_version db u rid vid) = true →
      deps.can_delete = true) ∧
    (version.is_original = true →
      0 < (db.applications.filter (fun a => a.resume_version_id == vid)).length →
      deps.can_delete = false) := by
  refine ⟨?_, ?_, ?_, ?_, ?_⟩
  · intro hc
    unfold ResumeService.delete_resume_version
    rw [hd]
    simp [hc]
  · intro hc hpF
    unfold ResumeService.delete_resume_version
    rw [hd]
    simp only [hc, Bool.true_eq_false, if_false, hv, hpF, Bool.false_eq_true, if_neg]
  · intro hc hpT
    unfold ResumeService.delete_resume_version
    rw [hd]
    simp only [hc, Bool.true_eq_false, if_false, hv, hpT, if_true, if_neg]
  · intro hdr
    by_cases hcd : deps.can_delete = true
    · exact hcd
    · exfalso
      have hcf : deps.can_delete = false := by
        cases hcb : deps.can_delete
        · rfl
        · exact absurd hcb hcd
      have herr : ResumeService.delete_resume_version db u rid vid =
          Except.error (SvcError.validation deps.message) := by
        unfold ResumeService.delete_resume_version
        rw [hd]
        simp [hcf]
      rw [herr] at hdr
      exact absurd hdr (by simp [deletesRow])
  · intro horig hpos
    have hok : ∃ r0, ResumeService.get_resume db u rid = Except.ok r0 := by
      unfold ResumeService.check_version_dependencies at hd
      cases hg : ResumeService.get_resume db u rid with
      | error e => rw [hg] at hd; exact absurd hd (by simp)
      | ok r0 => exact ⟨r0, rfl⟩
    obtain ⟨r0, hr⟩ := hok
    unfold ResumeService.check_version_dependencies at hd
    rw [hr, hv] at hd
    dsimp only at hd
    split at hd
    · injection hd with hd
      rw [← hd]
    · split at hd
      · injection hd with hd
        rw [← hd]
      · rename_i hc1 hc2
        exact absurd ⟨horig, hpos⟩ hc2

theorem likeEndsWith_concat (x company : String) :
    likeEndsWith (x ++ " - " ++ company) (" - " ++ company) = true := by
  unfold likeEndsWith
  rw [List.isSuffixOf_iff_suffix]
  simp only [String.data_append, List.append_assoc]
  exact List.suffix_append _ _

theorem customize_resume_fresh
    (rw_fun : String → String → Option String → String)
    (db : DB) (u rid ovid : Nat) (jd company : String) (instr : Option String)
    (r0 : ResumeRow) (orig : ResumeVersionRow)
    (hr : ResumeService.get_resume db u rid = Except.ok r0)
    (hov : db.resumeVersions.find? (fun v => v.id == ovid && v.resume_id == rid) = some orig)
    (hnone : db.resumeVersions.find? (fun v =>
      v.resume_id == rid && likeEndsWith v.version (" - " ++ company)) = none) :
    ResumeService.customize_resume_for_application rw_fun db u rid ovid jd company none instr =
      Except.ok (ResumeService.company_version_record db rid
          (rw_fun orig.markdown_content jd instr) jd company,
        { db with
            resumeVersions := db.resumeVersions ++
              [ResumeService.company_version_record db rid
                (rw_fun orig.markdown_content jd instr) jd company],
            nextId := db.nextId + 1 }, 1) := by
  unfold ResumeService.customize_resume_for_application
  rw [hr, hov]
  dsimp only
  rw [hnone]

/-- C5: sequential idempotence of company-keyed resume customization.  From
a store whose master has no version labeled with the company suffix yet,
two sequential `customize_resume_for_application` calls return the same
version row both times; the first call performs the single generation call
and appends the single new row, the second call generates nothing and
creates no row. -/
theorem C5_customization_idempotent
    (rw_fun : String → String → Option String → String)
    (db : DB) (u rid ovid : Nat) (jd company : String) (instr : Option String)
    (r0 : ResumeRow) (orig v1 v2 : ResumeVersionRow) (db1 db2 : DB) (g1 g2 : Nat)
    (hr : ResumeService.get_resume db u rid = Except.ok r0)
    (hov : db.resumeVersions.find? (fun v => v.id == ovid && v.resume_id == rid) = some orig)
    (hfresh : ∀ v ∈ db.resumeVersions, v.resume_id = rid →
      likeEndsWith v.version (" - " ++ company) = false)
    (h1 : ResumeService.customize_resume_for_application rw_fun db u rid ovid
      jd company none instr = Except.ok (v1, db1, g1))
    (h2 : ResumeService.customize_resume_for_application rw_fun db1 u rid ovid
      jd company none instr = Except.ok (v2, db2, g2)) :
    v2 = v1 ∧ g1 = 1 ∧ g2 = 0 ∧ db2 = db1 ∧
    db1.resumeVersions = db.resumeVersions ++ [v1] := by
  have hnone : db.resumeVersions.find? (fun v =>
      v.resume_id == rid && likeEndsWith v.version (" - " ++ company)) = none := by
    rw [List.find?_eq_none]
    intro x hx hpx
    simp only [Bool.and_eq_true, beq_iff_eq] at hpx
    rw [hfresh x hx hpx.1] at hpx
    exact Bool.false_ne_true hpx.2
  have e1 := customize_resume_fresh rw_fun db u rid ovid jd company instr r0 orig hr hov hnone
  rw [e1] at h1
  injection h1 with h1
  injection h1 with ha hb
  injection hb with hb hc
  have hr2 : ResumeService.get_resume db1 u rid = Except.ok r0 := by
    rw [← hb]; exact hr
  have hov2 : db1.resumeVersions.find? (fun v => v.id == ovid && v.resume_id == rid) =
      some orig := by
    rw [← hb]
    dsimp only
    rw [List.find?_append, hov]
    rfl
  have hsuf2 : db1.resumeVersions.find? (fun v =>
      v.resume_id == rid && likeEndsWith v.version (" - " ++ company)) = some v1 := by
    rw [← ha, ← hb]
    dsimp only
    rw [List.find?_append, hnone]
    dsimp only [Option.or]
    simp [List.find?, ResumeService.company_version_record, likeEndsWith_concat]
  have e2 : ResumeService.customize_resume_for_application rw_fun db1 u rid ovid
      jd company none instr = Except.ok (v1, db1, 0) := by
    unfold ResumeService.customize_resume_for_application
    rw [hr2, hov2]
    dsimp only
    rw [hsuf2]
  rw [e2] at h2
  injection h2 with h2
  injection h2 with hd he
  injection he with he hf
  exact ⟨hd.symm, hc.symm, hf.symm, he.symm, by rw [← hb, ← ha]⟩

/-- C6 (amended): a freshly generated customized *resume* version is
labeled "v{n+1} - {company}" where n is the masters version count at
creation time; a freshly generated customized *cover letter* version is
always labeled with the fixed string "v2 - {company}", independent of the
version count. -/
theorem C6_label_rule
    (rw_fun : String → String → Option String → String)
    (db : DB) (u rid ovid : Nat) (jd company : String) (instr : Option String)
    (r0 : ResumeRow) (orig v1 : ResumeVersionRow) (db1 : DB) (g1 : Nat)
    (hr : ResumeService.get_resume db u rid = Except.ok r0)
    (hov : db.resumeVersions.find? (fun v => v.id == ovid && v.resume_id == rid) = some orig)
    (hnone : db.resumeVersions.find? (fun v =>
      v.resume_id == rid && likeEndsWith v.version (" - " ++ company)) = none)
    (h1 : ResumeService.customize_resume_for_application rw_fun db u rid ovid
      jd company none instr = Except.ok (v1, db1, g1))
    (gen : String → String → Option String → String)
    (dbB : DB) (uB clid : Nat) (jdB companyB : String) (instrB : Option String)
    (cl0 : CoverLetterRow) (w0 w1 : CoverLetterVersionRow) (dbB1 : DB) (gB : Nat)
    (hcl : CoverLetterService.get_cover_letter dbB uB clid = Except.ok cl0)
    (horig : dbB.clVersions.reverse.find? (fun v =>
      v.cover_letter_id == clid && v.is_original == true) = some w0)
    (hnox : dbB.clVersions.find? (fun v =>
      v.cover_letter_id == clid && v.version == ("v2 - " ++ companyB)) = none)
    (hcb : CoverLetterService.customize_for_application gen dbB uB clid jdB companyB
      none instrB = Except.ok (w1, dbB1, gB)) :
    v1.version = "v" ++
      toString ((db.resumeVersions.filter (fun v => v.resume_id == rid)).length + 1) ++
      " - " ++ company ∧
    w1.version = "v2 - " ++ companyB := by
  constructor
  · rw [customize_resume_fresh rw_fun db u rid ovid jd company instr r0 orig hr hov hnone]
      at h1
    injection h1 with h1
    injection h1 with ha hb
    rw [← ha]
    rfl
  · unfold CoverLetterService.customize_for_application at hcb
    rw [hcl] at hcb
    dsimp only at hcb
    rw [horig] at hcb
    dsimp only at hcb
    rw [hnox] at hcb
    dsimp only at hcb
    injection hcb with hcb
    injection hcb with ha hb
    rw [← ha]

/-- C7 (amended): resume creation atomically produces the master together
with its single original version "v1"; cover letter creation produces the
initial version only when nonempty content is provided; the explicit
version-deletion endpoint refuses to delete the last remaining version of
a master — but the minimum is not a global invariant: the cascade helper
run by application deletion deletes an owned, unprotected, non-original
version even when it is the sole version of its master, leaving the master
with zero versions. -/
theorem C7_minimum_version (dbA : DB) (uA : Nat) (tA mA : String)
    (hfreshR : ∀ v ∈ dbA.resumeVersions, v.resume_id ≠ dbA.nextId)
    (dbB dbB2 : DB) (uB clid : Nat) (tB cB : String) (dflt : Bool)
    (hfreshCL : ∀ c ∈ dbB.coverLetters, c.id ≠ dbB.nextId)
    (hfreshC : ∀ v ∈ dbB.clVersions, v.cover_letter_id ≠ dbB.nextId)
    (hcne : cB.isEmpty = false)
    (hcc : CoverLetterService.create_cover_letter dbB uB tB (some cB) dflt =
      Except.ok (dbB2, clid))
    (dbC : DB) (uC ridC vidC : Nat)
    (hone : (dbC.resumeVersions.filter (fun v => v.resume_id == ridC)).length ≤ 1)
    (dbD : DB) (uD vidD : Nat) (v0D : ResumeVersionRow)
    (hfindD : dbD.resumeVersions.find? (fun v =>
        v.id == vidD && v.is_original == false &&
        dbD.resumes.any (fun r => r.id == v.resume_id && r.user_id == uD)) = some v0D)
    (hprotD : (dbD.applications.any (fun a => a.resume_version_id == v0D.id)) = false)
    (hsoleD : dbD.resumeVersions.filter (fun v => v.resume_id == v0D.resume_id) = [v0D]) :
    ((ResumeService.upload_resume dbA uA tA mA).1.resumeVersions.filter
        (fun v => v.resume_id == (ResumeService.upload_resume dbA uA tA mA).2)) =
      [⟨dbA.nextId + 1, dbA.nextId, "v1", mA, none, true⟩] ∧
    (clid = dbB.nextId ∧
      dbB2.clVersions.filter (fun v => v.cover_letter_id == clid) =
        [⟨dbB.nextId + 1, dbB.nextId, "v1", cB, none, true⟩]) ∧
    deletesRow (ResumeService.delete_resume_version dbC uC ridC vidC) = false ∧
    ((ResumeService.delete_application_resume_version dbD uD vidD).1 = true ∧
      ((ResumeService.delete_application_resume_version dbD uD vidD).2.resumeVersions.filter
          (fun v => v.resume_id == v0D.resume_id)).length = 0) := by
  refine ⟨?_, ?_, ?_, ?_⟩
  · unfold ResumeService.upload_resume
    dsimp only
    rw [List.filter_append]
    have hold : dbA.resumeVersions.filter (fun v => v.resume_id == dbA.nextId) = [] := by
      rw [List.filter_eq_nil_iff]
      intro a ha
      simp [hfreshR a ha]
    rw [hold]
    simp
  · have hfcl : dbB.coverLetters.find? (fun c => c.id == dbB.nextId && c.user_id == uB) =
        none := by
      rw [List.find?_eq_none]
      intro c hc
      simp [hfreshCL c hc]
    unfold CoverLetterService.create_cover_letter at hcc
    simp only [hcne, Bool.false_eq_true, if_false] at hcc
    unfold CoverLetterService.create_version CoverLetterService.get_cover_letter at hcc
    rw [List.find?_append, hfcl] at hcc
    dsimp only [Option.or] at hcc
    simp only [List.find?, beq_self_eq_true, Bool.and_self, if_true] at hcc
    injection hcc with hcc
    injection hcc with ha hb
    subst hb
    refine ⟨rfl, ?_⟩
    rw [← ha]
    dsimp only
    rw [List.filter_append]
    have hold : dbB.clVersions.filter (fun v => v.cover_letter_id == dbB.nextId) = [] := by
      rw [List.filter_eq_nil_iff]
      intro v hv
      simp [hfreshC v hv]
    rw [hold]
    simp
  · unfold deletesRow ResumeService.delete_resume_version
      ResumeService.check_version_dependencies
    cases hg : ResumeService.get_resume dbC uC ridC with
    | error e => rfl
    | ok r0 =>
      dsimp only
      cases hv : dbC.resumeVersions.find? (fun v => v.id == vidC && v.resume_id == ridC) with
      | none => rfl
      | some version =>
        dsimp only
        rw [if_pos hone]
        rfl
  · have hstep : ResumeService.delete_application_resume_version dbD uD vidD =
        (true, { dbD with
          resumeVersions := dbD.resumeVersions.filter (fun w => w.id != v0D.id) }) := by
      unfold ResumeService.delete_application_resume_version
      rw [hfindD]
      simp [hprotD]
    rw [hstep]
    refine ⟨rfl, ?_⟩
    dsimp only
    have hcomm : (dbD.resumeVersions.filter (fun w => w.id != v0D.id)).filter
        (fun v => v.resume_id == v0D.resume_id) =
        (dbD.resumeVersions.filter (fun v => v.resume_id == v0D.resume_id)).filter
        (fun w => w.id != v0D.id) := by
      rw [List.filter_filter, List.filter_filter]
      exact List.filter_congr (fun x _ => Bool.and_comm _ _)
    rw [hcomm, hsoleD]
    simp

/-- C9 (amended): the cover letter master dependency check collects exactly
the applications whose protected `cover_letter_version_id` joins a version
of this master; a direct `cover_letter_id` master reference is not
collected (it is nulled on delete, not blocking), and `canDelete` is true
iff the collected set is empty. -/
theorem C9_cover_letter_master_dependencies (db : DB) (u clid : Nat)
    (cl0 : CoverLetterRow) (deps : CoverLetterService.CoverLetterDeps)
    (hcl : CoverLetterService.get_cover_letter db u clid = Except.ok cl0)
    (hd : CoverLetterService.check_dependencies db u clid = Except.ok deps) :
    deps.can_delete = true ↔
      ∀ a ∈ db.applications, ∀ vid, a.cover_letter_version_id = some vid →
        ∀ v ∈ db.clVersions, ¬(v.id = vid ∧ v.cover_letter_id = clid) := by
  unfold CoverLetterService.check_dependencies at hd
  rw [hcl] at hd
  dsimp only at hd
  split at hd
  · injection hd with hd
    rw [← hd]
    simp only [true_iff]
    rename_i hlen
    have hnilmem : ∀ a ∈ db.applications,
        CoverLetterService.referencesCoverLetterVersion db clid a = false := by
      simpa using hlen
    intro a ha vid hvid v hv hcontra
    have href := hnilmem a ha
    unfold CoverLetterService.referencesCoverLetterVersion at href
    rw [hvid] at href
    dsimp only at href
    have : db.clVersions.any (fun w => w.id == vid && w.cover_letter_id == clid) = true :=
      List.any_eq_true.mpr ⟨v, hv, by simp [hcontra.1, hcontra.2]⟩
    rw [this] at href
    exact Bool.true_eq_false.mp href
  · injection hd with hd
    rw [← hd]
    simp only [Bool.false_eq_true, false_iff]
    intro hall
    rename_i hlen
    have : db.applications.filter
        (CoverLetterService.referencesCoverLetterVersion db clid) ≠ [] := by
      intro hnil
      rw [hnil] at hlen
      simp at hlen
    obtain ⟨a, ha⟩ := List.exists_mem_of_ne_nil _ this
    obtain ⟨hadb, hpa⟩ := List.mem_filter.mp ha
    unfold CoverLetterService.referencesCoverLetterVersion at hpa
    cases hcv : a.cover_letter_version_id with
    | none => rw [hcv] at hpa; exact Bool.false_ne_true hpa
    | some vid =>
      rw [hcv] at hpa
      obtain ⟨v, hv, hpv⟩ := List.any_eq_true.mp hpa
      simp only [Bool.and_eq_true, beq_iff_eq] at hpv
      exact hall a hadb vid hcv v hv ⟨hpv.1, hpv.2⟩

end Resumator
namespace Resumator

open Examples

/-- C1 counterexample: deleting application 10 of `dbOwnedCL` — whose only
owned-for-cascade reference is the customized cover letter version 2, a
non-original version owned by the caller that no other application
references in any way — leaves that version in place: the code cascades
only the customized resume version and never handles the owned customized
cover letter version, refuting the claim that an unshared owned version is
deleted. -/
theorem C1_counterexample :
    ApplicationService.delete_application dbOwnedCL 1 10 false =
      Except.ok (resOwnedCL, dbOwnedCLAfter) ∧
    appOwnedCL.customized_cover_letter_version_id = some 2 ∧
    clV2.is_original = false ∧
    clV2 ∈ dbOwnedCL.clVersions ∧
    (dbOwnedCL.applications.filter (fun a =>
        a.id != 10 && a.customized_cover_letter_version_id == some 2)).length = 0 ∧
    dbOwnedCLAfter.clVersions = dbOwnedCL.clVersions ∧
    resOwnedCL.customized_version_deleted = false :=
  ⟨rfl, rfl, rfl, by decide, rfl, rfl, rfl⟩

/-- C1 witness: the amended cascade rule instantiated on `dbShared`, whose
version 2 is owned by application 10 and protected by application 11. -/
theorem C1_witness :
    ((dbShared.applications.filter (fun a =>
        a.id != 10 && a.customized_resume_version_id == some 2)).length = 0 →
      (dbShared.applications.any (fun a => a.resume_version_id == versionV2Acme.id)) = false →
      resShared.customized_version_deleted = true ∧ resShared.warnings = [] ∧
      dbSharedAfter.resumeVersions =
        dbShared.resumeVersions.filter (fun w => w.id != versionV2Acme.id)) ∧
    ((dbShared.applications.filter (fun a =>
        a.id != 10 && a.customized_resume_version_id == some 2)).length = 0 →
      (dbShared.applications.any (fun a => a.resume_version_id == versionV2Acme.id)) = true →
      resShared.customized_version_deleted = false ∧ resShared.warnings = [] ∧
      dbSharedAfter.resumeVersions = dbShared.resumeVersions) ∧
    (0 < (dbShared.applications.filter (fun a =>
        a.id != 10 && a.customized_resume_version_id == some 2)).length →
      resShared.customized_version_deleted = false ∧ resShared.warnings ≠ [] ∧
      dbSharedAfter.resumeVersions = dbShared.resumeVersions) ∧
    dbSharedAfter.applications = dbShared.applications.filter (fun a => a.id != 10) ∧
    dbSharedAfter.clVersions = dbShared.clVersions :=
  C1_owned_reference_cascade dbShared 1 10 2 appOwner versionV2Acme resShared
    dbSharedAfter rfl rfl rfl rfl

/-- C2 counterexample: in `dbMixedBlocking` application 10 is deletable but
application 11 belongs to another user, so its individual deletion fails
inside the forced master deletion; the final master deletion then fails on
the surviving reference and the whole call errors — yet application 10
stays committed as deleted, refuting the claim that a failed forced
deletion commits no LinkRecord deletion. -/
theorem C2_counterexample :
    ResumeService.delete_resume_with_applications dbMixedBlocking 1 1 true =
      (dbMixedAfter, Except.error (SvcError.validation "Failed to delete resume")) ∧
    appBlockA ∈ dbMixedBlocking.applications ∧
    ¬ appBlockA ∈ dbMixedAfter.applications ∧
    dbMixedAfter.resumes = dbMixedBlocking.resumes ∧
    dbMixedAfter.resumeVersions = dbMixedBlocking.resumeVersions :=
  ⟨rfl, by decide, by decide, rfl, rfl⟩

/-- C2 witness: the amended forced-deletion behavior instantiated on
`dbTwoBlocking` (both blocking applications deletable, everything goes)
and, for the failure clause, on `dbMixedBlocking` (the failed final
deletion leaves the masters intact). -/
theorem C2_witness :
    resTwoBlocking.success = true ∧ resTwoBlocking.resume_deleted = true ∧
    resTwoBlocking.applications_deleted =
      (dbTwoBlocking.applications.filter (fun a => a.resume_id == 1)).length ∧
    (ResumeService.delete_resume_with_applications dbMixedBlocking 1 1 true).1.resumes =
      dbMixedBlocking.resumes := by
  have h := C2_forced_delete_best_effort dbTwoBlocking 1 1 resumeR resTwoBlocking
    dbTwoBlockingAfter rfl (by decide) (by decide) (by decide) rfl
    dbMixedBlocking 1 1 (SvcError.validation "Failed to delete resume") rfl
  exact ⟨h.1, h.2.1, h.2.2.1, h.2.2.2.2.2.2⟩

/-- C3 counterexample: in `dbProtectedNonOriginal`, application 10 holds a
protected `resume_version_id` reference to the non-original version 2, yet
the standalone dependency check reports `canDelete = true` — refuting the
claim that any reference of any kind forces `canDelete = false`. -/
theorem C3_counterexample :
    ResumeService.check_version_dependencies dbProtectedNonOriginal 1 1 2 =
      Except.ok depsProtectedNonOriginal ∧
    depsProtectedNonOriginal.can_delete = true ∧
    appProtOnly.resume_version_id = 2 ∧
    appProtOnly ∈ dbProtectedNonOriginal.applications :=
  ⟨rfl, rfl, rfl, by decide⟩

/-- C3 witness: the amended dependency rule instantiated on
`dbProtectedNonOriginal`. -/
theorem C3_witness :
    depsProtectedNonOriginal.can_delete = true ↔
      (1 < (dbProtectedNonOriginal.resumeVersions.filter
          (fun v => v.resume_id == 1)).length ∧
       (versionV2.is_original = true →
         (dbProtectedNonOriginal.applications.filter
           (fun a => a.resume_version_id == 2)).length = 0) ∧
       (dbProtectedNonOriginal.applications.filter (fun a =>
         a.customized_resume_version_id == some 2)).length = 0) :=
  C3_version_dependency_rule dbProtectedNonOriginal 1 1 2 resumeR versionV2
    depsProtectedNonOriginal rfl rfl rfl

/-- C4 counterexample: deleting the protected original version 1 of
`dbOriginalRef` fails with `ValidationError` — the code base defines no
conflict error kind, refuting the claim that the failure is a
`ConflictError` and not any other error kind. -/
theorem C4_counterexample :
    ResumeService.delete_resume_version dbOriginalRef 1 1 1 =
      Except.error (SvcError.validation
        "Cannot delete original version. It is referenced by 1 application(s) as their original version.") ∧
    versionV1.is_original = true ∧
    appProtToV1.resume_version_id = versionV1.id :=
  ⟨rfl, rfl, rfl⟩

/-- C4 witness: the amended error behavior instantiated on
`dbOriginalRef`. -/
theorem C4_witness :
    (depsOriginalRef.can_delete = false →
      ResumeService.delete_resume_version dbOriginalRef 1 1 1 =
        Except.error (SvcError.validation depsOriginalRef.message)) ∧
    (depsOriginalRef.can_delete = true →
      (dbOriginalRef.applications.any (fun a => a.resume_version_id == versionV1.id)) = false →
      ResumeService.delete_resume_version dbOriginalRef 1 1 1 =
        Except.ok (true, { dbOriginalRef with
          resumeVersions :=
            dbOriginalRef.resumeVersions.filter (fun w => w.id != versionV1.id) })) ∧
    (depsOriginalRef.can_delete = true →
      (dbOriginalRef.applications.any (fun a => a.resume_version_id == versionV1.id)) = true →
      ResumeService.delete_resume_version dbOriginalRef 1 1 1 =
        Except.ok (false, dbOriginalRef)) ∧
    (deletesRow (ResumeService.delete_resume_version dbOriginalRef 1 1 1) = true →
      depsOriginalRef.can_delete = true) ∧
    (versionV1.is_original = true →
      0 < (dbOriginalRef.applications.filter
        (fun a => a.resume_version_id == 1)).length →
      depsOriginalRef.can_delete = false) :=
  C4_original_protection_validation dbOriginalRef 1 1 1 versionV1 depsOriginalRef rfl rfl

/-- C5 witness: idempotent customization instantiated on `dbFresh` with the
constant generator. -/
theorem C5_witness :
    generatedAcme = generatedAcme ∧ (1 : Nat) = 1 ∧ (0 : Nat) = 0 ∧
    dbFreshAfter = dbFreshAfter ∧
    dbFreshAfter.resumeVersions = dbFresh.resumeVersions ++ [generatedAcme] :=
  C5_customization_idempotent genFun dbFresh 1 1 1 "jd" "Acme" none resumeR versionV1
    generatedAcme generatedAcme dbFreshAfter dbFreshAfter 1 0 rfl rfl (by decide) rfl rfl

/-- C6 counterexample: on `dbCoverTwo` the cover letter master has two
versions, so the claimed rule "v{n+1} - {company}" demands the label
"v3 - Acme"; the code produces the fixed label "v2 - Acme". -/
theorem C6_counterexample :
    CoverLetterService.customize_for_application genFun dbCoverTwo 1 1
        "jd" "Acme" none none =
      Except.ok (clGeneratedAcme, dbCoverTwoAfter, 1) ∧
    (dbCoverTwo.clVersions.filter (fun v => v.cover_letter_id == 1)).length = 2 ∧
    clGeneratedAcme.version = "v2 - Acme" ∧
    clGeneratedAcme.version ≠ "v3 - Acme" :=
  ⟨rfl, rfl, rfl, by decide⟩

/-- C6 witness: the amended label rules instantiated on `dbFresh` (resume)
and `dbCoverTwo` (cover letter). -/
theorem C6_witness :
    generatedAcme.version = "v" ++
      toString ((dbFresh.resumeVersions.filter (fun v => v.resume_id == 1)).length + 1) ++
      " - " ++ "Acme" ∧
    clGeneratedAcme.version = "v2 - " ++ "Acme" :=
  C6_label_rule genFun dbFresh 1 1 1 "jd" "Acme" none resumeR versionV1 generatedAcme
    dbFreshAfter 1 rfl rfl rfl rfl genFun dbCoverTwo 1 1 "jd" "Acme" none coverCL clV1
    clGeneratedAcme dbCoverTwoAfter 1 rfl rfl rfl rfl

/-- C7 counterexample: `create_cover_letter` with no content completes
successfully and leaves the new master with zero versions — refuting the
claim that creation always produces the master atomically together with its
first version. -/
theorem C7_counterexample :
    CoverLetterService.create_cover_letter emptyDB 1 "T" none false =
      Except.ok (dbEmptyAfterNone, 0) ∧
    dbEmptyAfterNone.coverLetters = [clCreated] ∧
    dbEmptyAfterNone.clVersions = [] :=
  ⟨rfl, rfl, rfl⟩

/-- C7 witness: the amended minimum-version behavior instantiated on
`dbFresh`, the empty store with content "hello", the last-version
protection on `dbFresh`, and the cascade gap on `dbSoleCustom`. -/
theorem C7_witness :
    ((ResumeService.upload_resume dbFresh 1 "T" "md").1.resumeVersions.filter
        (fun v => v.resume_id == (ResumeService.upload_resume dbFresh 1 "T" "md").2)) =
      [⟨21, 20, "v1", "md", none, true⟩] ∧
    ((0 : Nat) = emptyDB.nextId ∧
      dbEmptyAfterContent.clVersions.filter (fun v => v.cover_letter_id == 0) =
        [⟨1, 0, "v1", "hello", none, true⟩]) ∧
    deletesRow (ResumeService.delete_resume_version dbFresh 1 1 1) = false ∧
    ((ResumeService.delete_application_resume_version dbSoleCustom 1 2).1 = true ∧
      ((ResumeService.delete_application_resume_version dbSoleCustom 1 2).2.resumeVersions.filter
          (fun v => v.resume_id == versionV2Acme.resume_id)).length = 0) :=
  C7_minimum_version dbFresh 1 "T" "md" (by decide) emptyDB dbEmptyAfterContent 1 0
    "T" "hello" false (by decide) (by decide) rfl rfl dbFresh 1 1 1 (by decide)
    dbSoleCustom 1 2 versionV2Acme rfl rfl rfl

/-- C8 counterexample: in `dbOwnedOriginal` the owned reference points at
the original version 1; the dry run plans to delete it (and the preview
lists it), but the real deletion leaves it in place — refuting the claimed
equality between the dry-run would-delete set and the actually deleted
set. -/
theorem C8_counterexample :
    ApplicationService.delete_application dbOwnedOriginal 1 10 true =
      Except.ok (resDryOwnedOriginal, dbOwnedOriginal) ∧
    resDryOwnedOriginal.customized_version_id = some 1 ∧
    ApplicationService.delete_application dbOwnedOriginal 1 10 false =
      Except.ok (resOwnedOriginal, dbOwnedOriginalAfter) ∧
    resOwnedOriginal.customized_version_deleted = false ∧
    versionV1 ∈ dbOwnedOriginalAfter.resumeVersions :=
  ⟨rfl, rfl, rfl, rfl, by decide⟩

/-- C8 witness: dry-run/preview/real parity instantiated on `dbOwnedFresh`,
whose owned reference targets the unshared, unprotected non-original
version 2. -/
theorem C8_witness :
    dbOwnedFresh = dbOwnedFresh ∧
    resFreshDry.customized_version_id = pvFresh.will_delete_customized ∧
    (resFreshReal.customized_version_deleted = true ↔
      resFreshDry.customized_version_id = some 2) ∧
    dbOwnedFreshAfter.resumeVersions =
      dbOwnedFresh.resumeVersions.filter
        (fun w => (some w.id != resFreshDry.customized_version_id)) :=
  C8_dry_run_parity dbOwnedFresh 1 10 2 appOwner versionV2Acme resFreshDry resFreshReal
    pvFresh dbOwnedFresh dbOwnedFreshAfter rfl rfl rfl rfl rfl rfl rfl rfl

/-- C9 counterexample: in `dbMasterRef` application 10 holds a direct
`cover_letter_id` master reference to cover letter 1 and no version
reference; the check nevertheless reports `canDelete = true` — refuting the
claim that LinkRecords with a direct master reference are collected as
blocking. -/
theorem C9_counterexample :
    CoverLetterService.check_dependencies dbMasterRef 1 1 =
      Except.ok depsMasterRef ∧
    depsMasterRef.can_delete = true ∧
    appMasterRef.cover_letter_id = some 1 ∧
    appMasterRef ∈ dbMasterRef.applications :=
  ⟨rfl, rfl, rfl, by decide⟩

/-- C9 witness: the amended dependency collection instantiated on
`dbMasterRef`. -/
theorem C9_witness : depsMasterRef.can_delete = true := by
  refine (C9_cover_letter_master_dependencies dbMasterRef 1 1 coverCL depsMasterRef
    rfl rfl).mpr ?_
  intro a ha vid hvid v hv
  have haeq : a = appMasterRef := by
    simpa [dbMasterRef] using ha
  rw [haeq] at hvid
  exact absurd hvid (by simp [appMasterRef, baseApp])

/-- C10 witness: preservation of originals instantiated on
`dbOwnedOriginal`, whose owned reference targets the original version 1. -/
theorem C10_witness :
    ResumeService.delete_application_resume_version dbOwnedOriginal 1 versionV1.id =
      (false, dbOwnedOriginal) ∧
    versionV1 ∈ dbOwnedOriginalAfter.resumeVersions :=
  C10_cascade_preserves_originals dbOwnedOriginal 1 10 resOwnedOriginal
    dbOwnedOriginalAfter versionV1 (by decide) (by decide) rfl rfl

end Resumator
